import Mathlib

/-!
Verification of the joke-feed backend's core logic.

This file is a shallow embedding, in Lean 4, of the Python source of the
joke-sharing backend (routes.py, firebase_service.py, gemini_service.py).
External effects are made explicit:

* the Firestore jokes collection is a list of documents keyed by their
  joke_id field;
* the user document is an optional record (absent documents are created
  lazily by the mutating operations, exactly as in the source);
* the randomized range query feeding get_random_jokes is abstracted as the
  input stream of documents it returned;
* the nondeterminism of random.sample / random.choice is abstracted as a
  sampler record, with a lawfulness predicate capturing exactly what
  Python's random module guarantees (size, membership, no replacement);
* the generative provider (Gemini) is an oracle that either returns a list
  of candidate jokes or raises;
* fresh uuid4 identifiers are an input stream of strings;
* background tasks are returned as data rather than executed.

Python's float literal 0.7 and the expression
len(remaining_jokes) > 0.7 * len(all_jokes) are modelled bit-exactly over
the integers (IEEE-754 binary64, round to nearest, ties to even); the
overflow range (lengths at and beyond 2^1024, where CPython would raise
OverflowError) does not arise for realistic list lengths and is not
modelled.  Timestamps (created_at) and opaque settings maps carry no logic
and are omitted from the records.
-/

/-! ## Data model -/

/-- One element of a stored audio_urls field: the legacy format is a plain
string, the current format is a map; anything else is invalid and dropped
by normalization.  A map value is modelled as its key/value pairs. -/
inductive AudioEntry where
  | str (s : String)
  | dict (m : List (String × String))
  | invalid
deriving DecidableEq, Repr

/-- A joke document as stored in the jokes collection / returned in a
JokeResponse.  The joke_id field doubles as the document key.  The
default_audio_url field is Option-valued because the stored field may be
missing; Python truthiness treats none and the empty string alike. -/
structure Joke where
  joke_id : String
  joke_setup : String
  joke_punchline : String
  joke_content : String
  default_audio_url : Option String
  audio_urls : List AudioEntry
  scenarios : List String
  age_range : List String
  created_by_customer : Bool
  creator_id : String
  random_val : Option ℚ
deriving DecidableEq, Repr

/-- A user document.  The settings map and created_at timestamp carry no
logic in the verified operations and are omitted. -/
structure UserDoc where
  user_display_name : String
  user_email : String
  country : String
  favorites : List String
  like_history : List String
  dislike_history : List String
  creation_history : List String
  joke_jar : List String
  voices : List String
  age_range : String
  scen : String
  voice_to_use : String
deriving DecidableEq, Repr

/-- The joke_metadata counter document. -/
structure JokeMetadata where
  liked_times : Int
  disliked_times : Int
  saved_to_favorite_times : Int
deriving DecidableEq, Repr

/-- One structured joke candidate parsed from the generative provider's
response (models.GeminiJokeItem). -/
structure GeminiJokeItem where
  joke_setup : String
  joke_punchline : String
  joke_content : String
deriving DecidableEq, Repr

/-! ## Python string primitives

The embeddings of str.lower() and str.strip() used by the filters and the
duplicate key are written structurally over the character list (ASCII
case folding and whitespace stripping, which is what the source's data
uses), so that concrete instances evaluate inside the kernel. -/

/-- Embedding of Python str.lower(). -/
def pyLower (s : String) : String := String.mk (s.data.map Char.toLower)

/-- Embedding of Python str.strip(): drop leading and trailing
whitespace. -/
def pyStrip (s : String) : String :=
  String.mk (((s.data.dropWhile Char.isWhitespace).reverse.dropWhile Char.isWhitespace).reverse)

/-! ## FirebaseService._normalize_audio_urls -/

/-- Embedding of FirebaseService._normalize_audio_urls: the empty input is
returned as [] (the falsiness branch), a plain string is wrapped into a
dict with the default voice, a dict is kept as is, and any other entry is
skipped. -/
def normalize_audio_urls (audio_urls_data : List AudioEntry) : List AudioEntry :=
  if audio_urls_data = [] then []
  else go audio_urls_data
where
  /-- The accumulating loop of _normalize_audio_urls, one constructor case
  per branch of the Python loop body. -/
  go : List AudioEntry → List AudioEntry
  | [] => []
  | AudioEntry.str s :: rest =>
      AudioEntry.dict [("voice_id", "default"), ("audio_url", s)] :: go rest
  | AudioEntry.dict m :: rest => AudioEntry.dict m :: go rest
  | AudioEntry.invalid :: rest => go rest

/-- An entry is a dict (the normalized format). -/
def AudioEntry.isDict : AudioEntry → Bool
  | AudioEntry.dict _ => true
  | _ => false

/-! ## FirebaseService._update_joke_metadata_counter -/

/-- The three counter fields of joke_metadata. -/
inductive CounterField where
  | liked
  | disliked
  | favorite
deriving DecidableEq, Repr

/-- Read a counter field (metadata_doc.to_dict().get(field, 0)). -/
def JokeMetadata.getField (m : JokeMetadata) : CounterField → Int
  | CounterField.liked => m.liked_times
  | CounterField.disliked => m.disliked_times
  | CounterField.favorite => m.saved_to_favorite_times

/-- Write a counter field. -/
def JokeMetadata.setField (m : JokeMetadata) : CounterField → Int → JokeMetadata
  | CounterField.liked, v => { m with liked_times := v }
  | CounterField.disliked, v => { m with disliked_times := v }
  | CounterField.favorite, v => { m with saved_to_favorite_times := v }

/-- Embedding of FirebaseService._update_joke_metadata_counter's inner
_update_counter: if the metadata document exists the field is set to
max(0, current + increment); otherwise a fresh document of zeros is
created with the field set to max(0, increment).  The argument doc is the
document the racing background thread read, which under concurrent
interleavings may be any previously stored document (or absent). -/
def update_joke_metadata_counter (doc : Option JokeMetadata) (field : CounterField)
    (increment : Int) : JokeMetadata :=
  match doc with
  | some m => m.setField field (max 0 (m.getField field + increment))
  | none => (JokeMetadata.mk 0 0 0).setField field (max 0 increment)

/-- Apply a sequence of counter updates in order, starting from a possibly
absent document (each update reads the current stored state). -/
def applyCounterOps (start : Option JokeMetadata) :
    List (CounterField × Int) → Option JokeMetadata
  | [] => start
  | (f, inc) :: rest =>
      applyCounterOps (some (update_joke_metadata_counter start f inc)) rest

/-- All three stored counters are nonnegative. -/
def NonnegMetadata (m : JokeMetadata) : Prop :=
  0 ≤ m.liked_times ∧ 0 ≤ m.disliked_times ∧ 0 ≤ m.saved_to_favorite_times

/-- Nonnegativity for a possibly absent document (vacuous when absent). -/
def NonnegMetadataOpt : Option JokeMetadata → Prop
  | none => True
  | some m => NonnegMetadata m

/-! ## FirebaseService.get_random_jokes -/

/-- The scenario / age_range filter of get_random_jokes, shared by both
fields.  The requested value is absent (None), or checked after strip():
a blank value or the sentinel "all" (case-insensitively) disables the
filter; otherwise the joke matches if the stripped, lowercased request is
among the lowercased tags, or the tag list is empty. -/
def tagFilterMatch (requested : Option String) (tags : List String) : Bool :=
  match requested with
  | none => true
  | some s =>
      if s ≠ "" ∧ pyStrip s ≠ "" then
        let sLower := pyLower (pyStrip s)
        if sLower ≠ "all" then
          (tags.map pyLower).contains sLower || tags.length = 0
        else true
      else true

/-- Embedding of FirebaseService.get_random_jokes.  The randomized
threshold-and-direction range query is abstracted as the stream of
documents it produced (queryDocs, already capped at limit * 10 by the
store); the function then skips documents lacking random_val, applies both
tag filters, and stops once limit matching jokes are accumulated (the
early break together with the final slice is truncation to limit). -/
def get_random_jokes (queryDocs : List Joke) (limit : ℕ)
    (ageRange scen : Option String) : List Joke :=
  (queryDocs.filter (fun j =>
      j.random_val.isSome
      && tagFilterMatch scen j.scenarios
      && tagFilterMatch ageRange j.age_range)).take limit

/-! ## FirebaseService.get_joke_by_id / get_default_audio and the audio route -/

/-- Embedding of FirebaseService.get_joke_by_id: fetch a document by key
from the jokes collection (modelled as the first list element whose
joke_id field equals the key). -/
def get_joke_by_id (db : List Joke) (joke_id : String) : Option Joke :=
  db.find? (fun j => j.joke_id == joke_id)

/-- Embedding of FirebaseService.get_default_audio: read the joke
document; if it is absent return none, otherwise return its
default_audio_url when that field is truthy (present and nonempty). -/
def get_default_audio (db : List Joke) (joke_id : String) : Option String :=
  match get_joke_by_id db joke_id with
  | none => none
  | some j =>
      match j.default_audio_url with
      | some url => if url ≠ "" then some url else none
      | none => none

/-- Result of the GET /jokes/id/audio route: the response (ok carries the
returned audio_url, error carries the HTTP status), whether the
speech-synthesis provider was invoked, and the background persistence
tasks that were scheduled (joke_id, audio_url, audio_size). -/
structure AudioRouteResult where
  response : Except ℕ String
  providerInvoked : Bool
  scheduled : List (String × String × ℕ)
deriving Repr

/-- Embedding of routes.get_audio_for_joke.  The synthesis provider
(GeminiService.generate_audio_for_joke) is an oracle synth: none models a
failed/blocked generation (the function returns None), some (url, size) a
successful one.  On a cache hit the stored URL is returned with no
provider call and nothing scheduled; on a miss with an existing joke the
provider is invoked and, on success, an asynchronous save is scheduled. -/
def get_audio_for_joke (db : List Joke) (synth : Option (String × ℕ))
    (joke_id : String) : AudioRouteResult :=
  match get_default_audio db joke_id with
  | some url => { response := Except.ok url, providerInvoked := false, scheduled := [] }
  | none =>
      match get_joke_by_id db joke_id with
      | none => { response := Except.error 404, providerInvoked := false, scheduled := [] }
      | some _ =>
          match synth with
          | none => { response := Except.error 500, providerInvoked := true, scheduled := [] }
          | some (url, size) =>
              { response := Except.ok url
                providerInvoked := true
                scheduled := [(joke_id, url, size)] }

/-! ## User like/dislike history (FirebaseService) -/

/-- The user document created lazily by the mutating operations, with the
given like_history and dislike_history. -/
def freshUserDoc (likeH dislikeH : List String) : UserDoc :=
  { user_display_name := ""
    user_email := ""
    country := ""
    favorites := []
    like_history := likeH
    dislike_history := dislikeH
    creation_history := []
    joke_jar := []
    voices := []
    age_range := ""
    scen := ""
    voice_to_use := "" }

/-- Embedding of FirebaseService.add_to_user_liked_history: create the
document with like_history = [joke_id] if absent; otherwise append to
like_history if missing and remove from dislike_history if present,
writing only when something changed.  Returns the new stored state and
the boolean result. -/
def add_to_user_liked_history (user : Option UserDoc) (joke_id : String) :
    Option UserDoc × Bool :=
  match user with
  | none => (some (freshUserDoc [joke_id] []), true)
  | some u =>
      let like0 := u.like_history
      let dislike0 := u.dislike_history
      let like1 := if joke_id ∉ like0 then like0 ++ [joke_id] else like0
      let dislike1 := if joke_id ∈ dislike0 then dislike0.erase joke_id else dislike0
      let updated := joke_id ∉ like0 ∨ joke_id ∈ dislike0
      if updated then
        (some { u with like_history := like1, dislike_history := dislike1 }, true)
      else (some u, false)

/-- Embedding of FirebaseService.add_to_user_disliked_history: create the
document with dislike_history = [joke_id] if absent; otherwise remove from
like_history if present, append to dislike_history if missing, and always
write.  Returns the new stored state and the boolean result. -/
def add_to_user_disliked_history (user : Option UserDoc) (joke_id : String) :
    Option UserDoc × Bool :=
  match user with
  | none => (some (freshUserDoc [] [joke_id]), true)
  | some u =>
      let like1 := if joke_id ∈ u.like_history then u.like_history.erase joke_id
                   else u.like_history
      let dislike1 := if joke_id ∉ u.dislike_history then u.dislike_history ++ [joke_id]
                      else u.dislike_history
      (some { u with like_history := like1, dislike_history := dislike1 }, true)

/-- One call of the like/dislike API surface. -/
inductive HistOp where
  | like (joke_id : String)
  | dislike (joke_id : String)
deriving DecidableEq, Repr

/-- Apply one like/dislike call to the stored user state. -/
def applyHistOp (user : Option UserDoc) : HistOp → Option UserDoc
  | HistOp.like j => (add_to_user_liked_history user j).1
  | HistOp.dislike j => (add_to_user_disliked_history user j).1

/-- Apply a sequence of like/dislike calls in order. -/
def applyHistOps (user : Option UserDoc) (ops : List HistOp) : Option UserDoc :=
  ops.foldl applyHistOp user

/-- The user-document shape maintained by the service for the two history
lists: each is duplicate-free (membership is idempotent, per the data
model) and no identifier is in both simultaneously.  An absent document
satisfies it vacuously. -/
def HistInvariant : Option UserDoc → Prop
  | none => True
  | some u =>
      u.like_history.Nodup ∧ u.dislike_history.Nodup ∧
      ∀ j, j ∈ u.like_history → j ∉ u.dislike_history

/-! ## Bit-exact model of the Python expression 0.7 * len(...) -/

/-- The 53-bit significand of the binary64 value of the literal 0.7:
0.7 rounds to 6305039478318694 / 2^53 (verified against CPython, whose
Fraction(0.7) is 3152519739159347/4503599627370496, the same rational). -/
def float07Mantissa : ℕ := 6305039478318694

/-- Binary bit length computed with explicit fuel (the fuel n + 1 always
suffices), so that it reduces structurally inside the kernel. -/
def bitLenAux : ℕ → ℕ → ℕ
  | 0, _ => 0
  | fuel + 1, n => if n = 0 then 0 else bitLenAux fuel (n / 2) + 1

/-- Number of binary digits of n (0 for 0). -/
def bitLen (n : ℕ) : ℕ := bitLenAux (n + 1) n

/-- Round a nonnegative integer to 53 significant bits, nearest, ties to
even.  Returns (m, s) such that the rounded value is m * 2^s; when the
input already fits in 53 bits it is returned exactly. -/
def round53 (P : ℕ) : ℕ × ℕ :=
  let L := bitLen P
  if L ≤ 53 then (P, 0)
  else
    let s := L - 53
    let q := P / 2 ^ s
    let r := P % 2 ^ s
    let half := 2 ^ (s - 1)
    let m := if half < r then q + 1
             else if r < half then q
             else if q % 2 = 0 then q else q + 1
    (m, s)

/-- Bit-exact model of the Python comparison r > 0.7 * a for nonnegative
integers r and a: a is converted to binary64 (rounded to 53 bits), the
product with the binary64 value of 0.7 is rounded once, and the integer r
is compared exactly against the resulting dyadic rational (CPython
compares int to float exactly).  The comparison
r * 2^53 > mp * 2^(sp + sa) is the exact comparison
r > (mp * 2^(sp + sa)) / 2^53 cleared of its denominator. -/
def pyGt07 (r a : ℕ) : Bool :=
  let (ma, sa) := round53 a
  let (mp, sp) := round53 (float07Mantissa * ma)
  decide (mp * 2 ^ (sp + sa) < r * 2 ^ 53)

/-! ## The sampler abstraction for the random module -/

/-- The random.sample / random.choice operations used by the feed path,
abstracted as arbitrary functions over jokes and over identifier lists. -/
structure Sampler where
  sample : List Joke → ℕ → List Joke
  choice : List Joke → Option Joke
  sampleIds : List String → ℕ → List String

/-- What Python's random module actually guarantees about the abstracted
operations: random.sample(l, k) with k ≤ len(l) returns k elements drawn
without replacement (a sub-multiset of l), and random.choice on a
nonempty list returns one of its elements. -/
structure LawfulSampler (S : Sampler) : Prop where
  sample_length : ∀ l k, k ≤ l.length → (S.sample l k).length = k
  sample_le : ∀ l k, (S.sample l k : Multiset Joke) ≤ (l : Multiset Joke)
  choice_mem : ∀ l j, S.choice l = some j → j ∈ l
  choice_isSome : ∀ l, l ≠ [] → (S.choice l).isSome
  sampleIds_length : ∀ l k, k ≤ l.length → (S.sampleIds l k).length = k
  sampleIds_le : ∀ l k, (S.sampleIds l k : Multiset String) ≤ (l : Multiset String)

/-- A concrete deterministic sampler (take from the front) used to
instantiate lawful-sampler hypotheses on concrete inputs. -/
def frontSampler : Sampler :=
  { sample := fun l k => l.take k
    choice := fun l => l.head?
    sampleIds := fun l k => l.take k }

/-! ## Preference aggregation (FirebaseService) -/

/-- The result shape of FirebaseService.get_user_joke_ids. -/
structure UserJokeIds where
  favorite_joke_ids : List String
  liked_joke_ids : List String
  disliked_joke_ids : List String
  joke_jar_ids : List String
deriving Repr

/-- Embedding of FirebaseService.get_user_joke_ids: one read of the user
document, returning its four identifier lists (all empty when the
document is absent). -/
def get_user_joke_ids (user : Option UserDoc) : UserJokeIds :=
  match user with
  | none => { favorite_joke_ids := [], liked_joke_ids := [],
              disliked_joke_ids := [], joke_jar_ids := [] }
  | some u => { favorite_joke_ids := u.favorites, liked_joke_ids := u.like_history,
                disliked_joke_ids := u.dislike_history, joke_jar_ids := u.joke_jar }

/-- Embedding of FirebaseService.get_random_liked_jokes: sample
min(limit, len) identifiers from the user's like_history without
replacement and resolve each against the jokes collection, silently
dropping identifiers that no longer resolve. -/
def get_random_liked_jokes (S : Sampler) (db : List Joke) (user : Option UserDoc)
    (limit : ℕ) : List Joke :=
  let liked_joke_ids := (get_user_joke_ids user).liked_joke_ids
  if liked_joke_ids = [] then []
  else
    (S.sampleIds liked_joke_ids (min limit liked_joke_ids.length)).filterMap
      (fun joke_id => get_joke_by_id db joke_id)

/-! ## The feed composer (routes.get_jokes) -/

/-- Result of the POST /users/id/jokes/get route: the response (the
returned joke list, or an error), whether GeminiService.generate_jokes
was invoked, and the list of joke payloads scheduled for asynchronous
persistence (empty except on the successful backfill path). -/
structure FeedResult where
  response : Except Unit (List Joke)
  geminiInvoked : Bool
  scheduledSave : List Joke
deriving Repr

/-- Outcome of the generative bridge: a parsed list of candidates, or a
raised exception (generation or parse failure). -/
inductive GeminiOutcome where
  | ok (items : List GeminiJokeItem)
  | err
deriving Repr

/-- The effective requested count: request.num_jokes if it is provided and
positive, else 5. -/
def effectiveNumJokes (numJokesReq : Option Int) : ℕ :=
  match numJokesReq with
  | some n => if 0 < n then n.toNat else 5
  | none => 5

/-- Membership in the exclusion set built at the top of get_jokes (the
union of the user's favorites, like_history and dislike_history). -/
def excludedJokeId (user : Option UserDoc) (joke_id : String) : Bool :=
  let ids := get_user_joke_ids user
  ids.favorite_joke_ids.contains joke_id
  || ids.liked_joke_ids.contains joke_id
  || ids.disliked_joke_ids.contains joke_id

/-- The while-loop at the end of the direct-serve path: as long as the
result is short of num_jokes, pick (random.choice) one more joke from
remaining_jokes whose identifier is not among the already selected ones,
extending both the result and selected_remaining; stop when the pool is
exhausted. -/
def fillLoop (S : Sampler) (remaining : List Joke) (numJokes : ℕ)
    (result selected : List Joke) : List Joke :=
  if h : result.length < numJokes then
    let selectedIds := selected.map Joke.joke_id
    let more := remaining.filter (fun j => !(selectedIds.contains j.joke_id))
    if more = [] then result
    else
      match S.choice more with
      | some j => fillLoop S remaining numJokes (result ++ [j]) (selected ++ [j])
      | none => result
  else result
termination_by numJokes - result.length
decreasing_by simp only [List.length_append, List.length_cons, List.length_nil]; omega

/-- The transient JokeResponse built on the backfill path for one
generated candidate: a fresh UUID, empty audio fields, the request's
scenario / age_range as singleton tag lists when nonempty, and
creator_id = "gemini". -/
def mkGeminiJoke (joke_id : String) (item : GeminiJokeItem)
    (ageRange scen : String) : Joke :=
  { joke_id := joke_id
    joke_setup := item.joke_setup
    joke_punchline := item.joke_punchline
    joke_content := item.joke_content
    default_audio_url := some ""
    audio_urls := []
    scenarios := if scen ≠ "" then [scen] else []
    age_range := if ageRange ≠ "" then [ageRange] else []
    created_by_customer := false
    creator_id := "gemini"
    random_val := none }

/-- The candidate pool fetched by get_jokes (the all_jokes local):
num_jokes * 5 random jokes matching the request's age_range and
scenario. -/
def feedCandidates (queryDocs : List Joke) (numJokesReq : Option Int)
    (ageRange scen : String) : List Joke :=
  get_random_jokes queryDocs (effectiveNumJokes numJokesReq * 5) (some ageRange) (some scen)

/-- The candidate pool after removing the exclusion set (the
remaining_jokes local). -/
def feedRemaining (queryDocs : List Joke) (user : Option UserDoc)
    (numJokesReq : Option Int) (ageRange scen : String) : List Joke :=
  (feedCandidates queryDocs numJokesReq ageRange scen).filter
    (fun j => !(excludedJokeId user j.joke_id))

/-- The sufficiency decision of get_jokes, verbatim from the source:
len(all_jokes) > 0 and len(remaining_jokes) > 0.7 * len(all_jokes) (the
Python float comparison) and len(remaining_jokes) > num_from_remaining,
with num_from_remaining = max(0, num_jokes - 1). -/
def directServeCond (queryDocs : List Joke) (user : Option UserDoc)
    (numJokesReq : Option Int) (ageRange scen : String) : Prop :=
  0 < (feedCandidates queryDocs numJokesReq ageRange scen).length ∧
  pyGt07 (feedRemaining queryDocs user numJokesReq ageRange scen).length
      (feedCandidates queryDocs numJokesReq ageRange scen).length = true ∧
  effectiveNumJokes numJokesReq - 1 <
      (feedRemaining queryDocs user numJokesReq ageRange scen).length

instance (queryDocs : List Joke) (user : Option UserDoc) (numJokesReq : Option Int)
    (ageRange scen : String) :
    Decidable (directServeCond queryDocs user numJokesReq ageRange scen) := by
  unfold directServeCond
  infer_instance

/-- The Direct-Serve branch of get_jokes: sample num_jokes - 1 jokes from
the remaining pool, append one sampled liked joke when available, top up
with unique remaining jokes through the while-loop, and slice to
num_jokes. -/
def directServe (S : Sampler) (remaining liked : List Joke) (num_jokes : ℕ) :
    List Joke :=
  let num_from_remaining := num_jokes - 1
  let selected_remaining :=
    if 0 < num_from_remaining then
      S.sample remaining (min num_from_remaining remaining.length)
    else []
  let afterLiked :=
    selected_remaining ++
      (if 0 < liked.length then S.sample liked (min 1 liked.length) else [])
  (fillLoop S remaining num_jokes afterLiked selected_remaining).take num_jokes

/-- The successful Backfill branch of get_jokes: one transient joke per
generated candidate, with identifiers drawn in order from the fresh uuid4
stream. -/
def backfillJokes (freshIds : ℕ → String) (items : List GeminiJokeItem)
    (ageRange scen : String) : List Joke :=
  items.enum.map (fun p => mkGeminiJoke (freshIds p.1) p.2 ageRange scen)

/-- Embedding of routes.get_jokes (the feed composer).  Inputs beyond the
request parameters: db is the jokes collection (used to resolve liked
identifiers), queryDocs the stream produced by the randomized range query
inside get_random_jokes, user the user document, gemini the generative
bridge's outcome, freshIds the stream of uuid4 identifiers assigned on
the backfill path.  The authorization check and the liked/disliked
context lists passed to the generator (which only shape its prompt) are
outside the composed result and are not modelled. -/
def get_jokes (S : Sampler) (db queryDocs : List Joke) (user : Option UserDoc)
    (numJokesReq : Option Int) (ageRange scen : String)
    (gemini : GeminiOutcome) (freshIds : ℕ → String) : FeedResult :=
  let num_jokes := effectiveNumJokes numJokesReq
  let remaining_jokes := feedRemaining queryDocs user numJokesReq ageRange scen
  let liked_jokes := get_random_liked_jokes S db user 1
  if directServeCond queryDocs user numJokesReq ageRange scen then
    { response := Except.ok (directServe S remaining_jokes liked_jokes num_jokes)
      geminiInvoked := false
      scheduledSave := [] }
  else
    match gemini with
    | GeminiOutcome.ok items =>
        { response := Except.ok (backfillJokes freshIds items ageRange scen)
          geminiInvoked := true
          scheduledSave := backfillJokes freshIds items ageRange scen }
    | GeminiOutcome.err =>
        if remaining_jokes = [] then
          { response := Except.error (), geminiInvoked := true, scheduledSave := [] }
        else
          { response := Except.ok (remaining_jokes.take 10)
            geminiInvoked := true
            scheduledSave := [] }

/-- The joke list carried by an ok feed response ([] for an error). -/
def FeedResult.jokes (r : FeedResult) : List Joke :=
  match r.response with
  | Except.ok l => l
  | Except.error _ => []

/-! ## FirebaseService.save_jokes_async -/

/-- One joke payload passed to save_jokes_async (the dict built on the
backfill path: pre-assigned joke_id — empty meaning absent — setup,
punchline, content, and the tag lists; the default_audio_url and
audio_urls of a freshly inserted row default to empty). -/
structure SaveJokePayload where
  joke_id : String
  joke_setup : String
  joke_punchline : String
  joke_content : String
  scenarios : List String
  age_range : List String
deriving DecidableEq, Repr

/-- The duplicate-key predicate of get_joke_doc_by_setup_punchline: exact
setup equality, punchline equality after strip().lower(). -/
def dupKeyMatch (joke_setup joke_punchline : String) (d : Joke) : Bool :=
  d.joke_setup == joke_setup
  && pyLower (pyStrip d.joke_punchline) == pyLower (pyStrip joke_punchline)

/-- Embedding of FirebaseService.get_joke_doc_by_setup_punchline: the
first stored joke whose joke_setup equals the given setup exactly and
whose joke_punchline equals the given punchline after strip().lower(). -/
def get_joke_doc_by_setup_punchline (db : List Joke) (joke_setup joke_punchline : String) :
    Option Joke :=
  db.find? (dupKeyMatch joke_setup joke_punchline)

/-- Python's set-union of two tag lists, list(set(a) | set(b)) up to the
unspecified iteration order of a Python set: modelled as the
concatenation with duplicates removed, so that only membership is
meaningful. -/
def pySetUnion (a b : List String) : List String :=
  (a ++ b).dedup

/-- Merge the payload's tags into the first stored row matching its
(setup, punchline) key, in place (the existing_doc_ref.update branch). -/
def mergeIntoMatch (db : List Joke) (p : SaveJokePayload) : List Joke :=
  match db with
  | [] => []
  | d :: rest =>
      if dupKeyMatch p.joke_setup p.joke_punchline d then
        { d with scenarios := pySetUnion d.scenarios p.scenarios
                 age_range := pySetUnion d.age_range p.age_range } :: rest
      else d :: mergeIntoMatch rest p

/-- The fresh joke document inserted when no (setup, punchline) match
exists, under the given document key. -/
def newSavedJoke (key : String) (p : SaveJokePayload) (creator_id : String) : Joke :=
  { joke_id := key
    joke_setup := p.joke_setup
    joke_punchline := p.joke_punchline
    joke_content := p.joke_content
    default_audio_url := some ""
    audio_urls := []
    scenarios := p.scenarios
    age_range := p.age_range
    created_by_customer := false
    creator_id := creator_id
    random_val := some 0 }

/-- Processing of one item of save_jokes_async's loop body (the part
inside try): look up the (setup, punchline) duplicate key; on a match,
merge the tag sets into the existing row and do not insert; otherwise
insert a new row under the pre-assigned identifier when one was supplied,
else under a store-generated one (freshKey). -/
def saveJokeItem (db : List Joke) (p : SaveJokePayload) (creator_id freshKey : String) :
    List Joke :=
  match get_joke_doc_by_setup_punchline db p.joke_setup p.joke_punchline with
  | some _ => mergeIntoMatch db p
  | none =>
      let key := if p.joke_id ≠ "" then p.joke_id else freshKey
      db ++ [newSavedJoke key p creator_id]

/-- Embedding of FirebaseService.save_jokes_async: fold the items over the
store.  Exceptions thrown while processing one item are caught, logged
and skipped; the failure oracle fails (i : whether the item at absolute
index i raised) makes that nondeterminism explicit, a failed item leaving
the store unchanged and contributing nothing to the count.  Returns the
new store and saved_count, the number of rows successfully written or
merged. -/
def save_jokes_async (fails : ℕ → Bool) (freshKeys : ℕ → String)
    (items : List SaveJokePayload) (creator_id : String) (db : List Joke) :
    List Joke × ℕ :=
  go db 0 items
where
  /-- The loop of save_jokes_async, tracking the absolute item index. -/
  go : List Joke → ℕ → List SaveJokePayload → List Joke × ℕ
  | db, _, [] => (db, 0)
  | db, i, p :: rest =>
      if fails i then go db (i + 1) rest
      else
        let db1 := saveJokeItem db p creator_id (freshKeys i)
        let r := go db1 (i + 1) rest
        (r.1, r.2 + 1)

/-! # Theorems -/

/-! ## C10: normalization of audio_urls -/

/-- Every entry produced by the normalization loop is a dict. -/
lemma normalize_go_isDict (l : List AudioEntry) (e : AudioEntry)
    (h : e ∈ normalize_audio_urls.go l) : e.isDict = true := by
  induction l with
  | nil => simp [normalize_audio_urls.go] at h
  | cons a rest ih =>
      cases a with
      | str s =>
          rcases List.mem_cons.mp h with h1 | h1
          · subst h1; rfl
          · exact ih h1
      | dict m =>
          rcases List.mem_cons.mp h with h1 | h1
          · subst h1; rfl
          · exact ih h1
      | invalid => exact ih h

/-- The normalization loop maps a plain string entry to the wrapped
default-voice dict. -/
lemma normalize_go_wraps (l : List AudioEntry) (s : String)
    (h : AudioEntry.str s ∈ l) :
    AudioEntry.dict [("voice_id", "default"), ("audio_url", s)] ∈
      normalize_audio_urls.go l := by
  induction l with
  | nil => simp at h
  | cons a rest ih =>
      rcases List.mem_cons.mp h with h1 | h1
      · subst h1; exact List.mem_cons_self _ _
      · cases a with
        | str t => exact List.mem_cons_of_mem _ (ih h1)
        | dict m => exact List.mem_cons_of_mem _ (ih h1)
        | invalid => exact ih h1

/-- The normalization loop is idempotent. -/
lemma normalize_go_go (l : List AudioEntry) :
    normalize_audio_urls.go (normalize_audio_urls.go l) = normalize_audio_urls.go l := by
  induction l with
  | nil => rfl
  | cons a rest ih => cases a <;> simp [normalize_audio_urls.go, ih]

/-- The emptiness pre-check of _normalize_audio_urls coincides with just
running the loop. -/
lemma normalize_audio_urls_eq_go (l : List AudioEntry) :
    normalize_audio_urls l = normalize_audio_urls.go l := by
  unfold normalize_audio_urls
  split
  · next h => subst h; rfl
  · rfl

/-- C10: for every input list, _normalize_audio_urls returns a list in
which every element is a dict — plain strings are wrapped as a dict with
voice_id "default" and the string as audio_url, non-string non-dict
entries are dropped — and the function is idempotent. -/
theorem normalize_audio_urls_dict_and_idempotent :
    (∀ l e, e ∈ normalize_audio_urls l → e.isDict = true) ∧
    (∀ l s, AudioEntry.str s ∈ l →
        AudioEntry.dict [("voice_id", "default"), ("audio_url", s)] ∈
          normalize_audio_urls l) ∧
    (∀ l, normalize_audio_urls (normalize_audio_urls l) = normalize_audio_urls l) := by
  refine ⟨?_, ?_, ?_⟩
  · intro l e h
    rw [normalize_audio_urls_eq_go] at h
    exact normalize_go_isDict l e h
  · intro l s h
    rw [normalize_audio_urls_eq_go]
    exact normalize_go_wraps l s h
  · intro l
    rw [normalize_audio_urls_eq_go, normalize_audio_urls_eq_go]
    exact normalize_go_go l

/-- Witness for C10 on a concrete mixed input. -/
theorem normalize_audio_urls_witness :
    (AudioEntry.dict [("voice_id", "x"), ("audio_url", "u")]).isDict = true ∧
    AudioEntry.dict [("voice_id", "default"), ("audio_url", "a.wav")] ∈
      normalize_audio_urls
        [AudioEntry.str "a.wav", AudioEntry.invalid,
         AudioEntry.dict [("voice_id", "x"), ("audio_url", "u")]] ∧
    normalize_audio_urls (normalize_audio_urls
        [AudioEntry.str "a.wav", AudioEntry.invalid,
         AudioEntry.dict [("voice_id", "x"), ("audio_url", "u")]]) =
      normalize_audio_urls
        [AudioEntry.str "a.wav", AudioEntry.invalid,
         AudioEntry.dict [("voice_id", "x"), ("audio_url", "u")]] :=
  ⟨normalize_audio_urls_dict_and_idempotent.1
     [AudioEntry.str "a.wav", AudioEntry.invalid,
      AudioEntry.dict [("voice_id", "x"), ("audio_url", "u")]]
     (AudioEntry.dict [("voice_id", "x"), ("audio_url", "u")]) (by decide),
   normalize_audio_urls_dict_and_idempotent.2.1
     [AudioEntry.str "a.wav", AudioEntry.invalid,
      AudioEntry.dict [("voice_id", "x"), ("audio_url", "u")]] "a.wav" (by decide),
   normalize_audio_urls_dict_and_idempotent.2.2
     [AudioEntry.str "a.wav", AudioEntry.invalid,
      AudioEntry.dict [("voice_id", "x"), ("audio_url", "u")]]⟩

/-! ## C8: joke_metadata counter floor -/

/-- C8: every value written by _update_joke_metadata_counter has all three
counters nonnegative, no matter which previously stored (nonnegative or
absent) document the racing update read; hence after any sequence of
increments and decrements, in any interleaving, the stored counters are
never negative. -/
theorem joke_metadata_counter_floor :
    (∀ doc field inc, NonnegMetadataOpt doc →
        NonnegMetadata (update_joke_metadata_counter doc field inc)) ∧
    (∀ start ops, NonnegMetadataOpt start →
        NonnegMetadataOpt (applyCounterOps start ops)) := by
  have single : ∀ doc field inc, NonnegMetadataOpt doc →
      NonnegMetadata (update_joke_metadata_counter doc field inc) := by
    intro doc field inc h
    cases doc with
    | none =>
        cases field <;>
          simp [update_joke_metadata_counter, JokeMetadata.setField, NonnegMetadata]
    | some m =>
        obtain ⟨h1, h2, h3⟩ := h
        cases field <;>
          simp [update_joke_metadata_counter, JokeMetadata.setField,
            JokeMetadata.getField, NonnegMetadata] <;>
          omega
  refine ⟨single, ?_⟩
  intro start ops
  induction ops generalizing start with
  | nil => intro h; exact h
  | cons op rest ih =>
      intro h
      obtain ⟨f, inc⟩ := op
      exact ih _ (single start f inc h)

/-- Witness for C8: a decrement on a missing document and a sequence that
decrements below the floor. -/
theorem joke_metadata_counter_floor_witness :
    NonnegMetadata (update_joke_metadata_counter none CounterField.liked (-3)) ∧
    NonnegMetadataOpt (applyCounterOps none
      [(CounterField.liked, 2), (CounterField.liked, -5), (CounterField.disliked, -1)]) :=
  ⟨joke_metadata_counter_floor.1 none CounterField.liked (-3) trivial,
   joke_metadata_counter_floor.2 none _ trivial⟩

/-! ## C9: audio cache hit -/

/-- C9: when the stored default_audio_url is nonempty, the audio route
returns exactly that URL, does not invoke the synthesis provider and
schedules no writes; conversely the provider is invoked only for an
existing joke whose default_audio_url is absent or empty. -/
theorem audio_cache_hit_no_provider :
    (∀ db synth joke_id j url,
        get_joke_by_id db joke_id = some j →
        j.default_audio_url = some url → url ≠ "" →
        (get_audio_for_joke db synth joke_id).response = Except.ok url ∧
        (get_audio_for_joke db synth joke_id).providerInvoked = false ∧
        (get_audio_for_joke db synth joke_id).scheduled = []) ∧
    (∀ db synth joke_id,
        (get_audio_for_joke db synth joke_id).providerInvoked = true →
        ∃ j, get_joke_by_id db joke_id = some j ∧
          (j.default_audio_url = none ∨ j.default_audio_url = some "")) := by
  constructor
  · intro db synth joke_id j url hj hurl hne
    have hda : get_default_audio db joke_id = some url := by
      simp [get_default_audio, hj, hurl, hne]
    simp [get_audio_for_joke, hda]
  · intro db synth joke_id h
    cases hda : get_default_audio db joke_id with
    | some u => simp [get_audio_for_joke, hda] at h
    | none =>
        cases hj : get_joke_by_id db joke_id with
        | none => simp [get_audio_for_joke, hda, hj] at h
        | some j =>
            refine ⟨j, rfl, ?_⟩
            have hda2 : (match j.default_audio_url with
                | some url => if url ≠ "" then some url else none
                | none => none) = (none : Option String) := by
              simpa [get_default_audio, hj] using hda
            cases hdef : j.default_audio_url with
            | none => exact Or.inl rfl
            | some u =>
                rw [hdef] at hda2
                by_cases hu : u = ""
                · subst hu; exact Or.inr rfl
                · simp [hu] at hda2

/-- A stored joke with a cached default audio URL, for the C9 witness. -/
def audioWitnessJoke : Joke :=
  { joke_id := "jk1", joke_setup := "s", joke_punchline := "p", joke_content := ""
    default_audio_url := some "https://x/a.wav", audio_urls := []
    scenarios := [], age_range := [], created_by_customer := false
    creator_id := "u", random_val := none }

/-- Witness for C9 at a concrete store. -/
theorem audio_cache_hit_no_provider_witness :
    (get_audio_for_joke [audioWitnessJoke] none "jk1").response =
        Except.ok "https://x/a.wav" ∧
    (get_audio_for_joke [audioWitnessJoke] none "jk1").providerInvoked = false ∧
    (get_audio_for_joke [audioWitnessJoke] none "jk1").scheduled = [] :=
  audio_cache_hit_no_provider.1 [audioWitnessJoke] none "jk1" audioWitnessJoke
    "https://x/a.wav" (by decide) (by decide) (by decide)

/-! ## C5: get_random_jokes filter semantics -/

/-- Unfolding of the tag filter when a real (non-blank, non-"all") value
was requested. -/
lemma tagFilterMatch_semantics (s : String) (tags : List String)
    (h : tagFilterMatch (some s) tags = true)
    (hs : pyStrip s ≠ "") (hall : pyLower (pyStrip s) ≠ "all") :
    tags = [] ∨ ∃ t, t ∈ tags ∧ pyLower t = pyLower (pyStrip s) := by
  have hne : s ≠ "" := by
    intro e
    exact hs (by rw [e]; rfl)
  rw [tagFilterMatch] at h
  rw [if_pos ⟨hne, hs⟩] at h
  simp only [if_pos hall] at h
  rcases Bool.or_eq_true _ _ |>.mp h with h1 | h1
  · right
    have := List.mem_map.mp (List.elem_iff.mp h1)
    obtain ⟨t, ht, he⟩ := this
    exact ⟨t, ht, he⟩
  · left
    exact List.length_eq_zero.mp (by exact_mod_cast of_decide_eq_true h1)

/-- C5: a joke is returned by get_random_jokes only if it passes both the
scenario and the age_range filter; each filter, when supplied with a
value that is present, non-blank and not the sentinel "all"
(case-insensitively), admits a joke only when its tag list is empty or
contains the stripped requested value up to case. -/
theorem get_random_jokes_filter_correct (queryDocs : List Joke) (limit : ℕ)
    (ageRange scen : Option String) (j : Joke)
    (hmem : j ∈ get_random_jokes queryDocs limit ageRange scen) :
    (∀ s, scen = some s → pyStrip s ≠ "" → pyLower (pyStrip s) ≠ "all" →
        j.scenarios = [] ∨ ∃ t, t ∈ j.scenarios ∧ pyLower t = pyLower (pyStrip s)) ∧
    (∀ s, ageRange = some s → pyStrip s ≠ "" → pyLower (pyStrip s) ≠ "all" →
        j.age_range = [] ∨ ∃ t, t ∈ j.age_range ∧ pyLower t = pyLower (pyStrip s)) := by
  have hf := (List.mem_filter.mp (List.mem_of_mem_take hmem)).2
  have hscen : tagFilterMatch scen j.scenarios = true := by
    rcases Bool.and_eq_true _ _ |>.mp hf with ⟨h1, _⟩
    exact (Bool.and_eq_true _ _ |>.mp h1).2
  have hage : tagFilterMatch ageRange j.age_range = true := by
    exact (Bool.and_eq_true _ _ |>.mp hf).2
  constructor
  · intro s hs hne hall
    subst hs
    exact tagFilterMatch_semantics s j.scenarios hscen hne hall
  · intro s hs hne hall
    subst hs
    exact tagFilterMatch_semantics s j.age_range hage hne hall

/-- A stored joke with tags, for the C5 witness. -/
def filterWitnessJoke : Joke :=
  { joke_id := "jk2", joke_setup := "s", joke_punchline := "p", joke_content := ""
    default_audio_url := none, audio_urls := []
    scenarios := ["School"], age_range := ["5-8"], created_by_customer := false
    creator_id := "u", random_val := some 1 }

/-- Witness for C5: a case-insensitive scenario request with surrounding
whitespace admits the joke through its tag list. -/
theorem get_random_jokes_filter_correct_witness :
    filterWitnessJoke.scenarios = [] ∨
      ∃ t, t ∈ filterWitnessJoke.scenarios ∧ pyLower t = pyLower (pyStrip " school ") :=
  (get_random_jokes_filter_correct [filterWitnessJoke] 5 (some "5-8")
      (some " school ") filterWitnessJoke (by decide)).1
    " school " rfl (by decide) (by decide)

/-! ## C6: like/dislike mutual exclusion -/

/-- The like_history of a stored user state ([] when absent). -/
def likeOf (user : Option UserDoc) : List String :=
  (get_user_joke_ids user).liked_joke_ids

/-- The dislike_history of a stored user state ([] when absent). -/
def dislikeOf (user : Option UserDoc) : List String :=
  (get_user_joke_ids user).disliked_joke_ids

/-- Post-state of add_to_user_liked_history: the identifier is in
like_history and not in dislike_history, for any set-like starting
state. -/
lemma liked_post (user : Option UserDoc) (j : String) (h : HistInvariant user) :
    j ∈ likeOf (add_to_user_liked_history user j).1 ∧
    j ∉ dislikeOf (add_to_user_liked_history user j).1 := by
  cases user with
  | none =>
      simp [add_to_user_liked_history, likeOf, dislikeOf, get_user_joke_ids, freshUserDoc]
  | some u =>
      obtain ⟨hln, hdn, hdisj⟩ := h
      rw [add_to_user_liked_history]
      by_cases hupd : j ∉ u.like_history ∨ j ∈ u.dislike_history
      · rw [if_pos hupd]
        constructor
        · by_cases hl : j ∈ u.like_history
          · simp [likeOf, get_user_joke_ids, hl]
          · simp [likeOf, get_user_joke_ids, hl]
        · by_cases hd : j ∈ u.dislike_history
          · simp only [likeOf, dislikeOf, get_user_joke_ids, if_pos hd]
            intro hmem
            exact ((List.Nodup.mem_erase_iff hdn).mp hmem).1 rfl
          · simp [likeOf, dislikeOf, get_user_joke_ids, hd]
      · rw [if_neg hupd]
        push_neg at hupd
        obtain ⟨hl, hd⟩ := hupd
        exact ⟨hl, hd⟩

/-- Post-state of add_to_user_disliked_history: the identifier is in
dislike_history and not in like_history, for any set-like starting
state. -/
lemma disliked_post (user : Option UserDoc) (j : String) (h : HistInvariant user) :
    j ∈ dislikeOf (add_to_user_disliked_history user j).1 ∧
    j ∉ likeOf (add_to_user_disliked_history user j).1 := by
  cases user with
  | none =>
      simp [add_to_user_disliked_history, likeOf, dislikeOf, get_user_joke_ids, freshUserDoc]
  | some u =>
      obtain ⟨hln, hdn, hdisj⟩ := h
      rw [add_to_user_disliked_history]
      constructor
      · by_cases hd : j ∈ u.dislike_history
        · simp [dislikeOf, get_user_joke_ids, hd]
        · simp [dislikeOf, get_user_joke_ids, hd]
      · by_cases hl : j ∈ u.like_history
        · simp only [likeOf, get_user_joke_ids, if_pos hl]
          intro hmem
          exact ((List.Nodup.mem_erase_iff hln).mp hmem).1 rfl
        · simp [likeOf, get_user_joke_ids, hl]

/-- One like call preserves the set-like invariant. -/
lemma liked_preserves (user : Option UserDoc) (j : String) (h : HistInvariant user) :
    HistInvariant (add_to_user_liked_history user j).1 := by
  cases user with
  | none =>
      simp [add_to_user_liked_history, HistInvariant, freshUserDoc]
  | some u =>
      obtain ⟨hln, hdn, hdisj⟩ := h
      rw [add_to_user_liked_history]
      by_cases hupd : j ∉ u.like_history ∨ j ∈ u.dislike_history
      · rw [if_pos hupd]
        refine ⟨?_, ?_, ?_⟩
        · by_cases hl : j ∈ u.like_history
          · simpa [hl] using hln
          · simp only [if_pos hl]
            exact List.Nodup.append hln (List.nodup_singleton j)
              (by simpa [List.disjoint_singleton] using hl)
        · by_cases hd : j ∈ u.dislike_history
          · simpa [hd] using hdn.erase j
          · simpa [hd] using hdn
        · intro x hx
          by_cases hd : j ∈ u.dislike_history
          · simp only [if_pos hd]
            intro hmem
            have hxd := List.mem_of_mem_erase hmem
            have hxj : x ≠ j := ((List.Nodup.mem_erase_iff hdn).mp hmem).1
            by_cases hl : j ∈ u.like_history
            · rw [if_neg (by simp [hl])] at hx
              exact hdisj x hx hxd
            · rw [if_pos hl] at hx
              rcases List.mem_append.mp hx with h1 | h1
              · exact hdisj x h1 hxd
              · exact hxj (List.mem_singleton.mp h1)
          · simp only [if_neg hd]
            intro hxd
            by_cases hl : j ∈ u.like_history
            · rw [if_neg (by simp [hl])] at hx
              exact hdisj x hx hxd
            · rw [if_pos hl] at hx
              rcases List.mem_append.mp hx with h1 | h1
              · exact hdisj x h1 hxd
              · exact hd (List.mem_singleton.mp h1 ▸ hxd)
      · rw [if_neg hupd]
        exact ⟨hln, hdn, hdisj⟩

/-- One dislike call preserves the set-like invariant. -/
lemma disliked_preserves (user : Option UserDoc) (j : String) (h : HistInvariant user) :
    HistInvariant (add_to_user_disliked_history user j).1 := by
  cases user with
  | none =>
      simp [add_to_user_disliked_history, HistInvariant, freshUserDoc]
  | some u =>
      obtain ⟨hln, hdn, hdisj⟩ := h
      rw [add_to_user_disliked_history]
      refine ⟨?_, ?_, ?_⟩
      · by_cases hl : j ∈ u.like_history
        · simpa [hl] using hln.erase j
        · simpa [hl] using hln
      · by_cases hd : j ∈ u.dislike_history
        · simpa [hd] using hdn
        · simp only [if_pos hd]
          exact List.Nodup.append hdn (List.nodup_singleton j)
            (by simpa [List.disjoint_singleton] using hd)
      · intro x hx
        by_cases hl : j ∈ u.like_history
        · rw [if_pos hl] at hx
          have hxl := List.mem_of_mem_erase hx
          have hxj : x ≠ j := ((List.Nodup.mem_erase_iff hln).mp hx).1
          by_cases hd : j ∈ u.dislike_history
          · rw [if_neg (not_not_intro hd)]
            exact hdisj x hxl
          · rw [if_pos hd]
            intro hmem
            rcases List.mem_append.mp hmem with h1 | h1
            · exact hdisj x hxl h1
            · exact hxj (List.mem_singleton.mp h1)
        · rw [if_neg hl] at hx
          have hxj : x ≠ j := fun e => hl (e ▸ hx)
          by_cases hd : j ∈ u.dislike_history
          · rw [if_neg (not_not_intro hd)]
            exact hdisj x hx
          · rw [if_pos hd]
            intro hmem
            rcases List.mem_append.mp hmem with h1 | h1
            · exact hdisj x hx h1
            · exact hxj (List.mem_singleton.mp h1)

/-- C6: after a like call the identifier is absent from dislike_history,
after a dislike call it is absent from like_history, and the set-like
mutual-exclusion invariant is preserved by every sequence of like/dislike
calls in either order (including from the absent, lazily created user
document). -/
theorem like_dislike_mutual_exclusion :
    (∀ user j, HistInvariant user →
        j ∈ likeOf (applyHistOp user (HistOp.like j)) ∧
        j ∉ dislikeOf (applyHistOp user (HistOp.like j))) ∧
    (∀ user j, HistInvariant user →
        j ∈ dislikeOf (applyHistOp user (HistOp.dislike j)) ∧
        j ∉ likeOf (applyHistOp user (HistOp.dislike j))) ∧
    (∀ user ops, HistInvariant user → HistInvariant (applyHistOps user ops)) := by
  refine ⟨?_, ?_, ?_⟩
  · intro user j h
    exact liked_post user j h
  · intro user j h
    exact disliked_post user j h
  · intro user ops
    induction ops generalizing user with
    | nil => intro h; exact h
    | cons op rest ih =>
        intro h
        cases op with
        | like j => exact ih _ (liked_preserves user j h)
        | dislike j => exact ih _ (disliked_preserves user j h)

/-- Witness for C6 from the lazily created document through a
like-then-dislike-then-like sequence. -/
theorem like_dislike_mutual_exclusion_witness :
    ("j1" ∈ likeOf (applyHistOp none (HistOp.like "j1")) ∧
      "j1" ∉ dislikeOf (applyHistOp none (HistOp.like "j1"))) ∧
    ("j1" ∈ dislikeOf (applyHistOp (applyHistOp none (HistOp.like "j1")) (HistOp.dislike "j1")) ∧
      "j1" ∉ likeOf (applyHistOp (applyHistOp none (HistOp.like "j1")) (HistOp.dislike "j1"))) ∧
    HistInvariant (applyHistOps none
      [HistOp.like "j1", HistOp.dislike "j1", HistOp.like "j2", HistOp.like "j1"]) :=
  ⟨like_dislike_mutual_exclusion.1 none "j1" trivial,
   like_dislike_mutual_exclusion.2.1 (applyHistOp none (HistOp.like "j1")) "j1"
     (like_dislike_mutual_exclusion.2.2 none [HistOp.like "j1"] trivial),
   like_dislike_mutual_exclusion.2.2 none
     [HistOp.like "j1", HistOp.dislike "j1", HistOp.like "j2", HistOp.like "j1"] trivial⟩

/-! ## C7: duplicate merge in save_jokes_async -/

/-- Merging tags does not change the duplicate key of a row. -/
lemma dupKeyMatch_merge (joke_setup joke_punchline : String) (d : Joke)
    (scen age : List String) :
    dupKeyMatch joke_setup joke_punchline
      { d with scenarios := scen, age_range := age } =
    dupKeyMatch joke_setup joke_punchline d := rfl

/-- Membership in the Python set union of two tag lists. -/
lemma mem_pySetUnion (s : String) (a b : List String) :
    s ∈ pySetUnion a b ↔ s ∈ a ∨ s ∈ b := by
  simp [pySetUnion, List.mem_dedup, List.mem_append]

/-- mergeIntoMatch updates the first matching row in place: the row count
is unchanged and the first match of the result is the old row with its
tag sets unioned. -/
lemma mergeIntoMatch_spec (db : List Joke) (p : SaveJokePayload) (d : Joke)
    (h : db.find? (dupKeyMatch p.joke_setup p.joke_punchline) = some d) :
    (mergeIntoMatch db p).length = db.length ∧
    (mergeIntoMatch db p).find? (dupKeyMatch p.joke_setup p.joke_punchline) =
      some { d with scenarios := pySetUnion d.scenarios p.scenarios
                    age_range := pySetUnion d.age_range p.age_range } := by
  induction db with
  | nil => simp at h
  | cons a rest ih =>
      by_cases ha : dupKeyMatch p.joke_setup p.joke_punchline a = true
      · rw [List.find?_cons_of_pos _ ha] at h
        injection h with h
        subst h
        rw [mergeIntoMatch, if_pos ha]
        refine ⟨by simp, ?_⟩
        exact List.find?_cons_of_pos _ (by rw [dupKeyMatch_merge]; exact ha)
      · rw [List.find?_cons_of_neg _ (by simpa using ha)] at h
        obtain ⟨hlen, hfind⟩ := ih h
        rw [mergeIntoMatch, if_neg ha]
        refine ⟨by simpa using hlen, ?_⟩
        rw [List.find?_cons_of_neg _ (by simpa using ha)]
        exact hfind

/-- C7: saving a payload whose (setup, punchline) key matches an existing
row merges the tag sets into that row and creates no second row; only
when no match exists is a new row appended, keyed by the pre-assigned
identifier when one is supplied; and the loop never propagates a
per-item failure, returning the count of successfully processed items. -/
theorem save_jokes_async_merge :
    (∀ db p creator_id freshKey d,
        get_joke_doc_by_setup_punchline db p.joke_setup p.joke_punchline = some d →
        (saveJokeItem db p creator_id freshKey).length = db.length ∧
        ∃ d', get_joke_doc_by_setup_punchline (saveJokeItem db p creator_id freshKey)
                p.joke_setup p.joke_punchline = some d' ∧
          (∀ s, s ∈ d'.scenarios ↔ s ∈ d.scenarios ∨ s ∈ p.scenarios) ∧
          (∀ s, s ∈ d'.age_range ↔ s ∈ d.age_range ∨ s ∈ p.age_range)) ∧
    (∀ db p creator_id freshKey,
        get_joke_doc_by_setup_punchline db p.joke_setup p.joke_punchline = none →
        saveJokeItem db p creator_id freshKey =
          db ++ [newSavedJoke (if p.joke_id ≠ "" then p.joke_id else freshKey) p creator_id]) ∧
    (∀ fails freshKeys items creator_id db,
        (save_jokes_async fails freshKeys items creator_id db).2 =
          ((List.range items.length).filter (fun k => !(fails k))).length) := by
  refine ⟨?_, ?_, ?_⟩
  · intro db p creator_id freshKey d h
    obtain ⟨hlen, hfind⟩ :=
      mergeIntoMatch_spec db p d (by rw [get_joke_doc_by_setup_punchline] at h; exact h)
    have hsave : saveJokeItem db p creator_id freshKey = mergeIntoMatch db p := by
      rw [saveJokeItem, h]
    rw [hsave]
    refine ⟨hlen, ⟨{ d with scenarios := pySetUnion d.scenarios p.scenarios
                            age_range := pySetUnion d.age_range p.age_range }, ?_, ?_, ?_⟩⟩
    · rw [get_joke_doc_by_setup_punchline]
      exact hfind
    · intro s
      exact mem_pySetUnion s d.scenarios p.scenarios
    · intro s
      exact mem_pySetUnion s d.age_range p.age_range
  · intro db p creator_id freshKey h
    rw [saveJokeItem, h]
  · intro fails freshKeys items creator_id db
    suffices hgen : ∀ (its : List SaveJokePayload) (db0 : List Joke) (i : ℕ),
        (save_jokes_async.go fails freshKeys creator_id db0 i its).2 =
          ((List.range its.length).filter (fun k => !(fails (i + k)))).length by
      rw [save_jokes_async]
      simpa using hgen items db 0
    intro its
    induction its with
    | nil => intro db0 i; simp [save_jokes_async.go]
    | cons p rest ih =>
        intro db0 i
        have hrange : ((List.range (p :: rest).length).filter
              (fun k => !(fails (i + k)))).length =
            (if fails i then 0 else 1) +
              ((List.range rest.length).filter (fun k => !(fails (i + 1 + k)))).length := by
          rw [List.length_cons, List.range_succ_eq_map, List.filter_cons]
          have hshift : ((List.range rest.length).map Nat.succ).filter
                (fun k => !(fails (i + k))) =
              ((List.range rest.length).filter
                ((fun k => !(fails (i + k))) ∘ Nat.succ)).map Nat.succ :=
            List.filter_map Nat.succ (List.range rest.length)
          have hcong : (List.range rest.length).filter
                ((fun k => !(fails (i + k))) ∘ Nat.succ) =
              (List.range rest.length).filter (fun k => !(fails (i + 1 + k))) := by
            apply List.filter_congr
            intro k _
            have : i + Nat.succ k = i + 1 + k := by omega
            simp [Function.comp, this]
          rw [hshift, hcong]
          by_cases hf : fails i
          · simp [hf]
          · simp [hf]
            omega
        rw [hrange, save_jokes_async.go]
        by_cases hf : fails i
        · rw [if_pos hf, ih db0 (i + 1)]
          simp [hf]
        · have hf2 : fails i = false := by simpa using hf
          rw [if_neg hf]
          have hi := ih (saveJokeItem db0 p creator_id (freshKeys i)) (i + 1)
          simp only [hf2, Bool.false_eq_true, if_false]
          omega

/-! ## C1: the sufficiency decision of the feed composer -/

/-- A minimal stored joke used to populate concrete query streams. -/
def mkStreamJoke (joke_id : String) : Joke :=
  { joke_id := joke_id, joke_setup := "s", joke_punchline := "p", joke_content := ""
    default_audio_url := none, audio_urls := [], scenarios := [], age_range := []
    created_by_customer := false, creator_id := "u", random_val := some 1 }

/-- Ninety candidate documents j0 .. j89 returned by the range query. -/
def c1QueryDocs : List Joke :=
  (List.range 90).map (fun i => mkStreamJoke ("j" ++ Nat.repr i))

/-- A user whose exclusion set removes exactly 27 of those 90
candidates, leaving 63. -/
def c1User : Option UserDoc :=
  some { freshUserDoc [] [] with
           favorites := (List.range 27).map (fun i => "j" ++ Nat.repr i) }

/-- C1 counterexample: with 90 fetched candidates, 63 remaining after
exclusion and requestedCount 18, the remaining count equals exactly 0.7
times the fetched count, so the claimed strict-excess condition (b) is
false and the claim predicts the Backfill path — yet get_jokes takes the
Direct-Serve path and does not invoke the generative bridge, because
CPython evaluates 0.7 * 90 to the binary64 value 62.99999999999999 which
is strictly below 63. -/
theorem get_jokes_direct_serve_float_counterexample :
    (feedCandidates c1QueryDocs (some 18) "" "").length = 90 ∧
    (feedRemaining c1QueryDocs c1User (some 18) "" "").length = 63 ∧
    ¬ ((63 : ℚ) > (7 / 10) * 90) ∧
    (get_jokes frontSampler [] c1QueryDocs c1User (some 18) "" ""
        GeminiOutcome.err (fun _ => "")).geminiInvoked = false := by
  refine ⟨by decide, by decide, by norm_num, by decide⟩

/-- Ten candidate documents for the concrete instance of the heuristic. -/
def c1SmallQueryDocs : List Joke :=
  (List.range 10).map (fun i => mkStreamJoke ("j" ++ Nat.repr i))

/-- A user whose exclusion set removes 2 of those 10 candidates,
leaving 8. -/
def c1SmallUser : Option UserDoc :=
  some { freshUserDoc [] [] with favorites := ["j0", "j1"] }

/-- C1 amended: get_jokes takes the Direct-Serve path — equivalently, the
generative bridge is not invoked — if and only if the fetched pool is
nonempty, the binary64 comparison len(remaining) > 0.7 * len(all) holds
(which agrees with the exact rational comparison except when the fetched
count is a multiple of 10 whose 0.7-multiple rounds down, e.g. 90), and
len(remaining) > max(0, requestedCount - 1); in the spec's concrete
instance (10 fetched, 8 remaining, requestedCount 5) the Direct-Serve
path is taken. -/
theorem get_jokes_direct_serve_iff :
    (∀ S db queryDocs user numJokesReq ageRange scen gemini freshIds,
        (get_jokes S db queryDocs user numJokesReq ageRange scen gemini
            freshIds).geminiInvoked = false ↔
          directServeCond queryDocs user numJokesReq ageRange scen) ∧
    (feedCandidates c1SmallQueryDocs (some 5) "" "").length = 10 ∧
    (feedRemaining c1SmallQueryDocs c1SmallUser (some 5) "" "").length = 8 ∧
    (get_jokes frontSampler [] c1SmallQueryDocs c1SmallUser (some 5) "" ""
        GeminiOutcome.err (fun _ => "")).geminiInvoked = false := by
  refine ⟨?_, by decide, by decide, by decide⟩
  intro S db queryDocs user numJokesReq ageRange scen gemini freshIds
  rw [get_jokes.eq_def]
  split
  · next h => exact iff_of_true rfl h
  · next h =>
      cases gemini with
      | ok items => exact iff_of_false (by simp) h
      | err =>
          dsimp only
          by_cases hrem : feedRemaining queryDocs user numJokesReq ageRange scen = []
          · rw [if_pos hrem]
            exact iff_of_false (by simp) h
          · rw [if_neg hrem]
            exact iff_of_false (by simp) h

/-! ## C2 and C3 counterexamples: the Gemini-failure fallback bound -/

/-- A user whose exclusion set removes 4 of the 10 candidates,
leaving 6. -/
def c2User : Option UserDoc :=
  some { freshUserDoc [] [] with favorites := ["j0", "j1", "j2", "j3"] }

/-- C2 counterexample: with requestedCount 5, 10 fetched candidates and
6 remaining (60 percent, under the 70 percent threshold), the Backfill
path is taken; when the generative call fails, the fallback returns
remaining_jokes[:10] — all 6 jokes — so the response carries more than
the requested 5 jokes. -/
theorem get_jokes_count_counterexample :
    (get_jokes frontSampler [] c1SmallQueryDocs c2User (some 5) "" ""
        GeminiOutcome.err (fun _ => "")).jokes.length = 6 ∧
    5 < (get_jokes frontSampler [] c1SmallQueryDocs c2User (some 5) "" ""
        GeminiOutcome.err (fun _ => "")).jokes.length := by
  refine ⟨by decide, by decide⟩

/-- A user whose exclusion set removes 6 of the 10 candidates,
leaving 4. -/
def c3User : Option UserDoc :=
  some { freshUserDoc [] [] with
           favorites := ["j0", "j1", "j2"], dislike_history := ["j3", "j4", "j5"] }

/-- C3 counterexample: with requestedCount 2 and 4 remaining jokes, the
generative call fails and the fallback returns remaining_jokes[:10] —
4 jokes, not at most requestedCount = 2 as claimed. -/
theorem get_jokes_fallback_truncation_counterexample :
    (get_jokes frontSampler [] c1SmallQueryDocs c3User (some 2) "" ""
        GeminiOutcome.err (fun _ => "")).jokes.length = 4 ∧
    2 < (get_jokes frontSampler [] c1SmallQueryDocs c3User (some 2) "" ""
        GeminiOutcome.err (fun _ => "")).jokes.length := by
  refine ⟨by decide, by decide⟩

/-- C3 amended: on the Backfill path, when the generative call fails, the
composer falls back to the remaining (exclusion-filtered) jokes truncated
to at most 10 (not requestedCount); an error is surfaced to the caller if
and only if the remaining list is also empty. -/
theorem get_jokes_fallback_semantics (S : Sampler) (db queryDocs : List Joke)
    (user : Option UserDoc) (numJokesReq : Option Int) (ageRange scen : String)
    (freshIds : ℕ → String)
    (hpath : ¬ directServeCond queryDocs user numJokesReq ageRange scen) :
    ((feedRemaining queryDocs user numJokesReq ageRange scen ≠ [] →
        (get_jokes S db queryDocs user numJokesReq ageRange scen GeminiOutcome.err
            freshIds).response =
          Except.ok ((feedRemaining queryDocs user numJokesReq ageRange scen).take 10)) ∧
     (feedRemaining queryDocs user numJokesReq ageRange scen = [] →
        (get_jokes S db queryDocs user numJokesReq ageRange scen GeminiOutcome.err
            freshIds).response = Except.error ())) := by
  constructor
  · intro hne
    rw [get_jokes.eq_def]
    rw [if_neg hpath]
    simp only [if_neg hne]
  · intro he
    rw [get_jokes.eq_def]
    rw [if_neg hpath]
    simp only [if_pos he]

/-- Witness for the amended C3 at a concrete failing-generation input. -/
theorem get_jokes_fallback_semantics_witness :
    feedRemaining c1SmallQueryDocs c3User (some 2) "" "" ≠ [] ∧
    (get_jokes frontSampler [] c1SmallQueryDocs c3User (some 2) "" ""
        GeminiOutcome.err (fun _ => "")).response =
      Except.ok ((feedRemaining c1SmallQueryDocs c3User (some 2) "" "").take 10) :=
  ⟨by decide,
   (get_jokes_fallback_semantics frontSampler [] c1SmallQueryDocs c3User (some 2) "" ""
       (fun _ => "") (by decide)).1 (by decide)⟩

/-- An existing stored row for the C7 witness. -/
def mergeWitnessRow : Joke :=
  { joke_id := "r1", joke_setup := "Why?", joke_punchline := "Because! "
    joke_content := "", default_audio_url := none, audio_urls := []
    scenarios := ["school"], age_range := ["5-8"], created_by_customer := false
    creator_id := "u", random_val := none }

/-- An incoming payload whose (setup, punchline) collides with the stored
row up to strip().lower(). -/
def mergeWitnessPayload : SaveJokePayload :=
  { joke_id := "n1", joke_setup := "Why?", joke_punchline := "because!"
    joke_content := "", scenarios := ["home"], age_range := ["5-8"] }

/-- Witness for C7: saving the colliding payload leaves the row count at
one and unions the tag sets of the matched row. -/
theorem save_jokes_async_merge_witness :
    (saveJokeItem [mergeWitnessRow] mergeWitnessPayload "gemini" "k1").length =
        ([mergeWitnessRow] : List Joke).length ∧
    ∃ d', get_joke_doc_by_setup_punchline
            (saveJokeItem [mergeWitnessRow] mergeWitnessPayload "gemini" "k1")
            mergeWitnessPayload.joke_setup mergeWitnessPayload.joke_punchline = some d' ∧
      (∀ s, s ∈ d'.scenarios ↔
          s ∈ mergeWitnessRow.scenarios ∨ s ∈ mergeWitnessPayload.scenarios) ∧
      (∀ s, s ∈ d'.age_range ↔
          s ∈ mergeWitnessRow.age_range ∨ s ∈ mergeWitnessPayload.age_range) :=
  save_jokes_async_merge.1 [mergeWitnessRow] mergeWitnessPayload "gemini" "k1"
    mergeWitnessRow (by decide)

/-! ## C2 and C4: sampler and loop lemmas for the feed composer -/

/-- Elements of a lawful sample come from the sampled list. -/
lemma LawfulSampler.sample_mem {S : Sampler} (hS : LawfulSampler S)
    {l : List Joke} {k : ℕ} {j : Joke} (h : j ∈ S.sample l k) : j ∈ l := by
  have := Multiset.mem_of_le (hS.sample_le l k) (by exact_mod_cast h)
  exact_mod_cast this

/-- A lawful sample of a list with duplicate-free identifiers has
duplicate-free identifiers. -/
lemma LawfulSampler.sample_ids_nodup {S : Sampler} (hS : LawfulSampler S)
    (l : List Joke) (k : ℕ) (h : (l.map Joke.joke_id).Nodup) :
    ((S.sample l k).map Joke.joke_id).Nodup := by
  have hle : (((S.sample l k).map Joke.joke_id : List String) : Multiset String) ≤
      ((l.map Joke.joke_id : List String) : Multiset String) := by
    simpa using Multiset.map_le_map (f := Joke.joke_id) (hS.sample_le l k)
  have := Multiset.nodup_of_le hle (by exact_mod_cast h)
  exact_mod_cast this

/-- Identifiers drawn by a lawful identifier sample come from the list. -/
lemma LawfulSampler.sampleIds_mem {S : Sampler} (hS : LawfulSampler S)
    {l : List String} {k : ℕ} {i : String} (h : i ∈ S.sampleIds l k) : i ∈ l := by
  have := Multiset.mem_of_le (hS.sampleIds_le l k) (by exact_mod_cast h)
  exact_mod_cast this

/-- Every joke produced by get_random_liked_jokes carries an identifier
from the user's like_history. -/
lemma get_random_liked_jokes_mem {S : Sampler} (hS : LawfulSampler S)
    (db : List Joke) (user : Option UserDoc) (limit : ℕ) {j : Joke}
    (h : j ∈ get_random_liked_jokes S db user limit) :
    j.joke_id ∈ (get_user_joke_ids user).liked_joke_ids := by
  rw [get_random_liked_jokes] at h
  split at h
  · simp at h
  · obtain ⟨i, hi, hget⟩ := List.mem_filterMap.mp h
    have hid : j.joke_id = i := by
      have := List.find?_some hget
      simpa using this
    rw [hid]
    exact hS.sampleIds_mem hi

/-- If a list has duplicate-free identifiers and a sub-multiset sel of it
is excluded by identifier, the surviving filter has exactly
length - sel.length elements (and sel is no longer than the list). -/
lemma selected_filter_length (rem sel : List Joke)
    (hnodup : (rem.map Joke.joke_id).Nodup)
    (hle : (sel : Multiset Joke) ≤ (rem : Multiset Joke)) :
    sel.length ≤ rem.length ∧
    (rem.filter (fun j => !((sel.map Joke.joke_id).contains j.joke_id))).length =
      rem.length - sel.length := by
  have hremnd : rem.Nodup := hnodup.of_map
  have hselnd : sel.Nodup := by
    have := Multiset.nodup_of_le hle (by exact_mod_cast hremnd)
    exact_mod_cast this
  have hselids : (sel.map Joke.joke_id).Nodup := by
    have hle2 : ((sel.map Joke.joke_id : List String) : Multiset String) ≤
        ((rem.map Joke.joke_id : List String) : Multiset String) := by
      simpa using Multiset.map_le_map (f := Joke.joke_id) hle
    have := Multiset.nodup_of_le hle2 (by exact_mod_cast hnodup)
    exact_mod_cast this
  have hsub : sel ⊆ rem := fun x hx => by
    have := Multiset.mem_of_le hle (by exact_mod_cast hx)
    exact_mod_cast this
  have hin : (rem.filter (fun j => (sel.map Joke.joke_id).contains j.joke_id)).length =
      sel.length := by
    apply le_antisymm
    · have hfsub : ((rem.filter (fun j => (sel.map Joke.joke_id).contains j.joke_id)).map
          Joke.joke_id) ⊆ sel.map Joke.joke_id := by
        intro i hi
        obtain ⟨x, hx, hxi⟩ := List.mem_map.mp hi
        have := (List.mem_filter.mp hx).2
        rw [← hxi]
        exact List.elem_iff.mp this
      have hfnd : ((rem.filter
          (fun j => (sel.map Joke.joke_id).contains j.joke_id)).map Joke.joke_id).Nodup :=
        (hnodup.sublist (List.Sublist.map Joke.joke_id (List.filter_sublist rem)))
      have := (List.subperm_of_subset hfnd hfsub).length_le
      simpa using this
    · have hssub : sel ⊆ rem.filter (fun j => (sel.map Joke.joke_id).contains j.joke_id) := by
        intro x hx
        refine List.mem_filter.mpr ⟨hsub hx, ?_⟩
        exact List.elem_iff.mpr (List.mem_map_of_mem Joke.joke_id hx)
      exact (List.subperm_of_subset hselnd hssub).length_le
  have hsplit := List.length_eq_length_filter_add
    (l := rem) (fun j => (sel.map Joke.joke_id).contains j.joke_id)
  constructor
  · omega
  · omega

/-- The while-loop only appends: its result extends the incoming result
list with jokes drawn from the remaining pool. -/
lemma fillLoop_append (S : Sampler) (hS : LawfulSampler S) (remaining : List Joke)
    (numJokes : ℕ) (result selected : List Joke) :
    ∃ extra, fillLoop S remaining numJokes result selected = result ++ extra ∧
      ∀ x ∈ extra, x ∈ remaining := by
  induction result, selected using fillLoop.induct S remaining numJokes with
  | case1 result selected h1 sIds more h2 =>
      have h2e : remaining.filter
          (fun j => !((selected.map Joke.joke_id).contains j.joke_id)) = [] := h2
      refine ⟨[], ?_, by simp⟩
      rw [fillLoop, dif_pos h1]
      dsimp only
      rw [if_pos h2e]
      simp
  | case2 result selected h1 sIds more h2 j hj ih =>
      have h2e : ¬ remaining.filter
          (fun j => !((selected.map Joke.joke_id).contains j.joke_id)) = [] := h2
      have hje : S.choice (remaining.filter
          (fun j => !((selected.map Joke.joke_id).contains j.joke_id))) = some j := hj
      obtain ⟨extra, heq, hmem⟩ := ih
      have hjrem : j ∈ remaining := by
        have := hS.choice_mem _ _ hje
        exact (List.mem_filter.mp this).1
      refine ⟨j :: extra, ?_, ?_⟩
      · rw [fillLoop, dif_pos h1]
        dsimp only
        rw [if_neg h2e, hje]
        simp [heq]
      · intro x hx
        rcases List.mem_cons.mp hx with h | h
        · subst h; exact hjrem
        · exact hmem x h
  | case3 result selected h1 sIds more h2 hj =>
      have h2e : ¬ remaining.filter
          (fun j => !((selected.map Joke.joke_id).contains j.joke_id)) = [] := h2
      have hje : S.choice (remaining.filter
          (fun j => !((selected.map Joke.joke_id).contains j.joke_id))) = none := hj
      refine ⟨[], ?_, by simp⟩
      rw [fillLoop, dif_pos h1]
      dsimp only
      rw [if_neg h2e, hje]
      simp
  | case4 result selected h1 =>
      refine ⟨[], ?_, by simp⟩
      rw [fillLoop, dif_neg h1]
      simp

/-- Length of the while-loop's result: the loop tops the result up to
num_jokes as long as unpicked remaining jokes exist, so the final length
is the initial length or, if larger, the smaller of num_jokes and the
initial length plus the number of unpicked remaining jokes. -/
lemma fillLoop_length (S : Sampler) (hS : LawfulSampler S) (remaining : List Joke)
    (numJokes : ℕ) (hremnd : (remaining.map Joke.joke_id).Nodup)
    (result selected : List Joke)
    (hle : (selected : Multiset Joke) ≤ (remaining : Multiset Joke)) :
    (fillLoop S remaining numJokes result selected).length =
      max result.length
        (min numJokes (result.length + (remaining.length - selected.length))) := by
  induction result, selected using fillLoop.induct S remaining numJokes with
  | case1 result selected h1 sIds more h2 =>
      have h2e : remaining.filter
          (fun j => !((selected.map Joke.joke_id).contains j.joke_id)) = [] := h2
      obtain ⟨hsellen, hflen⟩ := selected_filter_length remaining selected hremnd hle
      have h0 : remaining.length - selected.length = 0 := by
        rw [h2e] at hflen
        simpa using hflen.symm
      rw [fillLoop, dif_pos h1]
      dsimp only
      rw [if_pos h2e, h0]
      omega
  | case2 result selected h1 sIds more h2 j hj ih =>
      have h2e : ¬ remaining.filter
          (fun j => !((selected.map Joke.joke_id).contains j.joke_id)) = [] := h2
      have hje : S.choice (remaining.filter
          (fun j => !((selected.map Joke.joke_id).contains j.joke_id))) = some j := hj
      have hjmore := hS.choice_mem _ _ hje
      have hjrem : j ∈ remaining := (List.mem_filter.mp hjmore).1
      have hjid : ((selected.map Joke.joke_id).contains j.joke_id) = false := by
        have := (List.mem_filter.mp hjmore).2
        simpa using this
      have hjid2 : j.joke_id ∉ selected.map Joke.joke_id := by
        simpa using hjid
      have hjnotsel : j ∉ selected := by
        intro hin
        exact hjid2 (List.mem_map_of_mem Joke.joke_id hin)
      have hle' : ((selected ++ [j] : List Joke) : Multiset Joke) ≤
          (remaining : Multiset Joke) := by
        rw [Multiset.le_iff_count]
        intro x
        have hc := Multiset.le_iff_count.mp hle x
        simp only [Multiset.coe_count] at hc ⊢
        rw [List.count_append]
        by_cases hx : x = j
        · subst hx
          have h0 : selected.count x = 0 := List.count_eq_zero.mpr hjnotsel
          have hp : 0 < remaining.count x := by
            by_contra hnp
            have : remaining.count x = 0 := by omega
            exact (List.count_eq_zero.mp this) hjrem
          have hcs : List.count x [x] = 1 := by simp
          rw [h0, hcs]
          omega
        · have hcs : List.count x [j] = 0 :=
            List.count_eq_zero.mpr (by simp [hx])
          rw [hcs]
          simpa using hc
      obtain ⟨hsellen, hflen⟩ := selected_filter_length remaining selected hremnd hle
      have hmorepos : 0 < (remaining.filter
          (fun j => !((selected.map Joke.joke_id).contains j.joke_id))).length :=
        List.length_pos.mpr h2e
      have hrec := ih hle'
      rw [fillLoop, dif_pos h1]
      dsimp only
      rw [if_neg h2e, hje]
      rw [hrec]
      simp only [List.length_append, List.length_singleton]
      omega
  | case3 result selected h1 sIds more h2 hj =>
      have h2e : ¬ remaining.filter
          (fun j => !((selected.map Joke.joke_id).contains j.joke_id)) = [] := h2
      have hje : S.choice (remaining.filter
          (fun j => !((selected.map Joke.joke_id).contains j.joke_id))) = none := hj
      exfalso
      have := hS.choice_isSome _ h2e
      rw [hje] at this
      simp at this
  | case4 result selected h1 =>
      rw [fillLoop, dif_neg h1]
      omega

/-- Identifier distinctness through the while-loop: if the identifiers of
the incoming result are distinct, each is either a selected identifier or
comes from a set E disjoint from the remaining pool's identifiers, then
the loop output's identifiers are distinct. -/
lemma fillLoop_ids_nodup (S : Sampler) (hS : LawfulSampler S) (remaining : List Joke)
    (numJokes : ℕ) (E : List String)
    (hE : ∀ x ∈ remaining, x.joke_id ∉ E)
    (result selected : List Joke)
    (hres : (result.map Joke.joke_id).Nodup)
    (hsel : (selected.map Joke.joke_id).Nodup)
    (hinv : ∀ i ∈ result.map Joke.joke_id, i ∈ selected.map Joke.joke_id ∨ i ∈ E) :
    ((fillLoop S remaining numJokes result selected).map Joke.joke_id).Nodup := by
  induction result, selected using fillLoop.induct S remaining numJokes with
  | case1 result selected h1 sIds more h2 =>
      have h2e : remaining.filter
          (fun j => !((selected.map Joke.joke_id).contains j.joke_id)) = [] := h2
      rw [fillLoop, dif_pos h1]
      dsimp only
      rw [if_pos h2e]
      exact hres
  | case2 result selected h1 sIds more h2 j hj ih =>
      have h2e : ¬ remaining.filter
          (fun j => !((selected.map Joke.joke_id).contains j.joke_id)) = [] := h2
      have hje : S.choice (remaining.filter
          (fun j => !((selected.map Joke.joke_id).contains j.joke_id))) = some j := hj
      have hjmore := hS.choice_mem _ _ hje
      have hjrem : j ∈ remaining := (List.mem_filter.mp hjmore).1
      have hjid : ((selected.map Joke.joke_id).contains j.joke_id) = false := by
        have := (List.mem_filter.mp hjmore).2
        simpa using this
      have hjid2 : j.joke_id ∉ selected.map Joke.joke_id := by
        simpa using hjid
      have hjnotres : j.joke_id ∉ result.map Joke.joke_id := by
        intro hin
        rcases hinv _ hin with h | h
        · exact hjid2 h
        · exact hE j hjrem h
      rw [fillLoop, dif_pos h1]
      dsimp only
      rw [if_neg h2e, hje]
      apply ih
      · rw [List.map_append]
        refine List.Nodup.append hres (by simp) ?_
        simpa [List.disjoint_singleton] using hjnotres
      · rw [List.map_append]
        refine List.Nodup.append hsel (by simp) ?_
        simpa [List.disjoint_singleton] using hjid2
      · intro i hi
        rw [List.map_append] at hi
        rcases List.mem_append.mp hi with h | h
        · rcases hinv _ h with h' | h'
          · left
            rw [List.map_append]
            exact List.mem_append_left _ h'
          · right
            exact h'
        · left
          rw [List.map_append]
          exact List.mem_append_right _ h
  | case3 result selected h1 sIds more h2 hj =>
      have h2e : ¬ remaining.filter
          (fun j => !((selected.map Joke.joke_id).contains j.joke_id)) = [] := h2
      have hje : S.choice (remaining.filter
          (fun j => !((selected.map Joke.joke_id).contains j.joke_id))) = none := hj
      rw [fillLoop, dif_pos h1]
      dsimp only
      rw [if_neg h2e, hje]
      exact hres
  | case4 result selected h1 =>
      rw [fillLoop, dif_neg h1]
      exact hres

/-- Lists of at most one element are duplicate-free. -/
lemma nodup_of_length_le_one {α : Type} (l : List α) (h : l.length ≤ 1) : l.Nodup := by
  match l with
  | [] => exact List.nodup_nil
  | [a] => exact List.nodup_singleton a
  | a :: b :: rest => simp at h

/-- The selected_remaining slice of the direct path, named for reuse. -/
def directSelectedRemaining (S : Sampler) (remaining : List Joke) (num_jokes : ℕ) :
    List Joke :=
  if 0 < num_jokes - 1 then S.sample remaining (min (num_jokes - 1) remaining.length)
  else []

/-- The liked slice of the direct path, named for reuse. -/
def directLikedSlice (S : Sampler) (liked : List Joke) : List Joke :=
  if 0 < liked.length then S.sample liked (min 1 liked.length) else []

/-- directServe, re-expressed through the named slices. -/
lemma directServe_eq (S : Sampler) (remaining liked : List Joke) (num_jokes : ℕ) :
    directServe S remaining liked num_jokes =
      (fillLoop S remaining num_jokes
        (directSelectedRemaining S remaining num_jokes ++ directLikedSlice S liked)
        (directSelectedRemaining S remaining num_jokes)).take num_jokes := rfl

/-- The selected_remaining slice is a sub-multiset of the remaining
pool. -/
lemma directSelectedRemaining_le (S : Sampler) (hS : LawfulSampler S)
    (remaining : List Joke) (num_jokes : ℕ) :
    ((directSelectedRemaining S remaining num_jokes : List Joke) : Multiset Joke) ≤
      (remaining : Multiset Joke) := by
  rw [directSelectedRemaining]
  split
  · exact hS.sample_le _ _
  · simp

/-- Length of the selected_remaining slice when the pool suffices. -/
lemma directSelectedRemaining_length (S : Sampler) (hS : LawfulSampler S)
    (remaining : List Joke) (num_jokes : ℕ)
    (hcount : num_jokes - 1 ≤ remaining.length) :
    (directSelectedRemaining S remaining num_jokes).length = num_jokes - 1 := by
  rw [directSelectedRemaining]
  split
  · rw [min_eq_left hcount]
    exact hS.sample_length _ _ hcount
  · next h => simp at h ⊢; omega

/-- The liked slice has at most one element. -/
lemma directLikedSlice_length (S : Sampler) (hS : LawfulSampler S) (liked : List Joke) :
    (directLikedSlice S liked).length = min 1 liked.length := by
  rw [directLikedSlice]
  split
  · exact hS.sample_length _ _ (min_le_right _ _)
  · next h =>
      have : liked.length = 0 := by omega
      simp [this]

/-- Elements of the liked slice come from the liked list. -/
lemma directLikedSlice_mem (S : Sampler) (hS : LawfulSampler S) (liked : List Joke)
    {x : Joke} (h : x ∈ directLikedSlice S liked) : x ∈ liked := by
  rw [directLikedSlice] at h
  split at h
  · exact hS.sample_mem h
  · simp at h

/-- Elements of the selected_remaining slice come from the remaining
pool. -/
lemma directSelectedRemaining_mem (S : Sampler) (hS : LawfulSampler S)
    (remaining : List Joke) (num_jokes : ℕ) {x : Joke}
    (h : x ∈ directSelectedRemaining S remaining num_jokes) : x ∈ remaining := by
  have := Multiset.mem_of_le (directSelectedRemaining_le S hS remaining num_jokes)
    (by exact_mod_cast h)
  exact_mod_cast this

/-- C2, direct path: when the decision's count condition holds, the
direct path returns exactly num_jokes jokes. -/
lemma directServe_length (S : Sampler) (hS : LawfulSampler S)
    (remaining liked : List Joke) (num_jokes : ℕ)
    (hremnd : (remaining.map Joke.joke_id).Nodup)
    (h1 : 1 ≤ num_jokes) (hcount : num_jokes - 1 < remaining.length) :
    (directServe S remaining liked num_jokes).length = num_jokes := by
  rw [directServe_eq]
  have hsellen := directSelectedRemaining_length S hS remaining num_jokes
    (le_of_lt hcount)
  have hlikedlen := directLikedSlice_length S hS liked
  have hfl := fillLoop_length S hS remaining num_jokes hremnd
    (directSelectedRemaining S remaining num_jokes ++ directLikedSlice S liked)
    (directSelectedRemaining S remaining num_jokes)
    (directSelectedRemaining_le S hS remaining num_jokes)
  rw [List.length_take, hfl, List.length_append, hsellen, hlikedlen]
  omega

/-- C4, direct path: the direct-path response contains at most one joke
failing a predicate that fails on the whole remaining pool, and any such
joke comes from the liked list. -/
lemma directServe_filter (S : Sampler) (hS : LawfulSampler S)
    (remaining liked : List Joke) (num_jokes : ℕ) (p : Joke → Bool)
    (hrem : ∀ x ∈ remaining, p x = false) :
    ((directServe S remaining liked num_jokes).filter p).length ≤ 1 ∧
    ∀ x ∈ directServe S remaining liked num_jokes, p x = true → x ∈ liked := by
  obtain ⟨extra, heq, hex⟩ := fillLoop_append S hS remaining num_jokes
    (directSelectedRemaining S remaining num_jokes ++ directLikedSlice S liked)
    (directSelectedRemaining S remaining num_jokes)
  rw [directServe_eq, heq]
  have hselnil : (directSelectedRemaining S remaining num_jokes).filter p = [] :=
    List.filter_eq_nil_iff.mpr (fun x hx => by
      simp [hrem x (directSelectedRemaining_mem S hS remaining num_jokes hx)])
  have hexnil : extra.filter p = [] :=
    List.filter_eq_nil_iff.mpr (fun x hx => by simp [hrem x (hex x hx)])
  constructor
  · have hsub : ((List.take num_jokes
        (directSelectedRemaining S remaining num_jokes ++ directLikedSlice S liked ++
          extra)).filter p).length ≤
        ((directSelectedRemaining S remaining num_jokes ++ directLikedSlice S liked ++
          extra).filter p).length :=
      ((List.take_sublist _ _).filter p).length_le
    refine le_trans hsub ?_
    rw [List.filter_append, List.filter_append, hselnil, hexnil]
    simp only [List.nil_append, List.append_nil]
    calc ((directLikedSlice S liked).filter p).length
        ≤ (directLikedSlice S liked).length := (List.filter_sublist _).length_le
      _ ≤ 1 := by rw [directLikedSlice_length S hS]; omega
  · intro x hx hpx
    have hx2 := List.mem_of_mem_take hx
    rcases List.mem_append.mp hx2 with h | h
    · rcases List.mem_append.mp h with h' | h'
      · rw [hrem x (directSelectedRemaining_mem S hS remaining num_jokes h')] at hpx
        exact absurd hpx (by simp)
      · exact directLikedSlice_mem S hS liked h'
    · rw [hrem x (hex x h)] at hpx
      exact absurd hpx (by simp)

/-- C2, direct path: with a duplicate-free pool whose identifiers are
disjoint from the liked list's, the direct-path response never repeats an
identifier. -/
lemma directServe_ids_nodup (S : Sampler) (hS : LawfulSampler S)
    (remaining liked : List Joke) (num_jokes : ℕ)
    (hremnd : (remaining.map Joke.joke_id).Nodup)
    (hdisj : ∀ x ∈ liked, ∀ y ∈ remaining, x.joke_id ≠ y.joke_id) :
    ((directServe S remaining liked num_jokes).map Joke.joke_id).Nodup := by
  have hselnd : ((directSelectedRemaining S remaining num_jokes).map Joke.joke_id).Nodup := by
    rw [directSelectedRemaining]
    split
    · exact hS.sample_ids_nodup _ _ hremnd
    · simp
  rw [directServe_eq]
  refine List.Nodup.sublist (List.Sublist.map Joke.joke_id (List.take_sublist _ _)) ?_
  apply fillLoop_ids_nodup S hS remaining num_jokes (liked.map Joke.joke_id)
  · intro x hx hmem
    obtain ⟨y, hy, hyx⟩ := List.mem_map.mp hmem
    exact hdisj y hy x hx hyx
  · rw [List.map_append]
    refine List.Nodup.append hselnd ?_ ?_
    · apply nodup_of_length_le_one
      rw [List.length_map, directLikedSlice_length S hS]
      omega
    · intro i hi hi'
      obtain ⟨x, hx, hxi⟩ := List.mem_map.mp hi
      obtain ⟨y, hy, hyi⟩ := List.mem_map.mp hi'
      have hxrem := directSelectedRemaining_mem S hS remaining num_jokes hx
      have hyliked := directLikedSlice_mem S hS liked hy
      exact hdisj y hyliked x hxrem (by rw [hyi, hxi])
  · exact hselnd
  · intro i hi
    rw [List.map_append] at hi
    rcases List.mem_append.mp hi with h | h
    · left; exact h
    · right
      obtain ⟨x, hx, hxi⟩ := List.mem_map.mp h
      rw [← hxi]
      exact List.mem_map_of_mem Joke.joke_id (directLikedSlice_mem S hS liked hx)

/-- Jokes surviving the exclusion filter are not excluded. -/
lemma feedRemaining_not_excluded (queryDocs : List Joke) (user : Option UserDoc)
    (numJokesReq : Option Int) (ageRange scen : String) {x : Joke}
    (h : x ∈ feedRemaining queryDocs user numJokesReq ageRange scen) :
    excludedJokeId user x.joke_id = false := by
  have := (List.mem_filter.mp h).2
  simpa using this

/-- The exclusion-filtered pool is a sublist of the query stream. -/
lemma feedRemaining_sublist (queryDocs : List Joke) (user : Option UserDoc)
    (numJokesReq : Option Int) (ageRange scen : String) :
    List.Sublist (feedRemaining queryDocs user numJokesReq ageRange scen) queryDocs := by
  rw [feedRemaining, feedCandidates, get_random_jokes]
  exact (List.filter_sublist _).trans
    ((List.take_sublist _ _).trans (List.filter_sublist _))

/-- With duplicate-free query identifiers, the filtered pool's
identifiers are duplicate-free. -/
lemma feedRemaining_ids_nodup (queryDocs : List Joke) (user : Option UserDoc)
    (numJokesReq : Option Int) (ageRange scen : String)
    (hq : (queryDocs.map Joke.joke_id).Nodup) :
    ((feedRemaining queryDocs user numJokesReq ageRange scen).map Joke.joke_id).Nodup :=
  hq.sublist (List.Sublist.map Joke.joke_id
    (feedRemaining_sublist queryDocs user numJokesReq ageRange scen))

/-- An identifier from the user's like_history is in the exclusion
set. -/
lemma liked_id_excluded (user : Option UserDoc) {i : String}
    (h : i ∈ (get_user_joke_ids user).liked_joke_ids) :
    excludedJokeId user i = true := by
  rw [excludedJokeId]
  simp only [Bool.or_eq_true, List.elem_iff]
  exact Or.inl (Or.inr h)

/-- Liked jokes and the filtered pool never share an identifier. -/
lemma liked_remaining_disjoint (S : Sampler) (hS : LawfulSampler S) (db : List Joke)
    (queryDocs : List Joke) (user : Option UserDoc) (numJokesReq : Option Int)
    (ageRange scen : String) (limit : ℕ) :
    ∀ x ∈ get_random_liked_jokes S db user limit,
      ∀ y ∈ feedRemaining queryDocs user numJokesReq ageRange scen,
        x.joke_id ≠ y.joke_id := by
  intro x hx y hy heq
  have hid := get_random_liked_jokes_mem hS db user limit hx
  have hex := liked_id_excluded user hid
  rw [heq] at hex
  rw [feedRemaining_not_excluded queryDocs user numJokesReq ageRange scen hy] at hex
  exact Bool.false_ne_true hex

/-- The effective requested count is at least one. -/
lemma effectiveNumJokes_pos (r : Option Int) : 1 ≤ effectiveNumJokes r := by
  cases r with
  | none => decide
  | some n =>
      show 1 ≤ if 0 < n then n.toNat else 5
      split
      · next h => omega
      · omega

/-- Every backfill joke carries an identifier from the fresh stream. -/
lemma backfillJokes_id (freshIds : ℕ → String) (items : List GeminiJokeItem)
    (ageRange scen : String) {x : Joke} (h : x ∈ backfillJokes freshIds items ageRange scen) :
    ∃ k, x.joke_id = freshIds k := by
  rw [backfillJokes] at h
  obtain ⟨p, hp, he⟩ := List.mem_map.mp h
  exact ⟨p.1, by rw [← he]; rfl⟩

/-- C4: every identifier in an ok feed response is outside the user's
favorites, like_history and dislike_history, except at most one joke —
the deliberately injected liked joke — whose identifier lies in
like_history. -/
theorem get_jokes_exclusion (S : Sampler) (db queryDocs : List Joke)
    (user : Option UserDoc) (numJokesReq : Option Int) (ageRange scen : String)
    (gemini : GeminiOutcome) (freshIds : ℕ → String)
    (hS : LawfulSampler S)
    (hfresh : ∀ i, excludedJokeId user (freshIds i) = false) :
    ∀ l, (get_jokes S db queryDocs user numJokesReq ageRange scen gemini
        freshIds).response = Except.ok l →
      (l.filter (fun j => excludedJokeId user j.joke_id)).length ≤ 1 ∧
      ∀ j ∈ l, excludedJokeId user j.joke_id = true →
        j.joke_id ∈ (get_user_joke_ids user).liked_joke_ids := by
  intro l hl
  rw [get_jokes.eq_def] at hl
  dsimp only at hl
  split at hl
  · next hcond =>
      have hl2 : Except.ok (directServe S
          (feedRemaining queryDocs user numJokesReq ageRange scen)
          (get_random_liked_jokes S db user 1) (effectiveNumJokes numJokesReq)) =
          Except.ok l := hl
      injection hl2 with hl2
      subst hl2
      obtain ⟨h1, h2⟩ := directServe_filter S hS
        (feedRemaining queryDocs user numJokesReq ageRange scen)
        (get_random_liked_jokes S db user 1) (effectiveNumJokes numJokesReq)
        (fun j => excludedJokeId user j.joke_id)
        (fun x hx => feedRemaining_not_excluded queryDocs user numJokesReq ageRange scen hx)
      refine ⟨h1, ?_⟩
      intro j hj hex
      exact get_random_liked_jokes_mem hS db user 1 (h2 j hj hex)
  · next hcond =>
      cases gemini with
      | ok items =>
          have hl2 : Except.ok (backfillJokes freshIds items ageRange scen) =
              Except.ok l := hl
          injection hl2 with hl2
          subst hl2
          have hnil : (backfillJokes freshIds items ageRange scen).filter
              (fun j => excludedJokeId user j.joke_id) = [] := by
            refine List.filter_eq_nil_iff.mpr ?_
            intro x hx
            obtain ⟨k, hk⟩ := backfillJokes_id freshIds items ageRange scen hx
            simp [hk, hfresh k]
          constructor
          · rw [hnil]
            simp
          · intro j hj hex
            obtain ⟨k, hk⟩ := backfillJokes_id freshIds items ageRange scen hj
            rw [hk, hfresh k] at hex
            exact absurd hex (by simp)
      | err =>
          have hl3 : ((if feedRemaining queryDocs user numJokesReq ageRange scen = [] then
              ({ response := Except.error (), geminiInvoked := true,
                 scheduledSave := [] } : FeedResult)
            else
              { response := Except.ok ((feedRemaining queryDocs user numJokesReq ageRange
                  scen).take 10), geminiInvoked := true,
                scheduledSave := [] }) : FeedResult).response = Except.ok l := hl
          by_cases hrem : feedRemaining queryDocs user numJokesReq ageRange scen = []
          · rw [if_pos hrem] at hl3
            have hl4 : (Except.error () : Except Unit (List Joke)) = Except.ok l := hl3
            exact absurd hl4 (by simp)
          · rw [if_neg hrem] at hl3
            have hl2 : Except.ok ((feedRemaining queryDocs user numJokesReq ageRange
                scen).take 10) = Except.ok l := hl3
            injection hl2 with hl2
            subst hl2
            have hnil : ((feedRemaining queryDocs user numJokesReq ageRange
                scen).take 10).filter (fun j => excludedJokeId user j.joke_id) = [] := by
              refine List.filter_eq_nil_iff.mpr ?_
              intro x hx
              have := feedRemaining_not_excluded queryDocs user numJokesReq ageRange scen
                (List.mem_of_mem_take hx)
              simp [this]
            constructor
            · rw [hnil]
              simp
            · intro j hj hex
              rw [feedRemaining_not_excluded queryDocs user numJokesReq ageRange scen
                (List.mem_of_mem_take hj)] at hex
              exact absurd hex (by simp)

/-- The deterministic front sampler satisfies everything random.sample
and random.choice guarantee. -/
lemma frontSampler_lawful : LawfulSampler frontSampler := by
  constructor
  · intro l k hk
    simp [frontSampler, List.length_take]
    omega
  · intro l k
    exact Multiset.coe_le.mpr (List.take_sublist k l).subperm
  · intro l j h
    exact List.mem_of_mem_head? h
  · intro l h
    cases l with
    | nil => exact absurd rfl h
    | cons a rest => simp [frontSampler]
  · intro l k hk
    simp [frontSampler, List.length_take]
    omega
  · intro l k
    exact Multiset.coe_le.mpr (List.take_sublist k l).subperm

/-- Witness for C4: a concrete direct-serve request whose response
contains at most one excluded (liked) identifier. -/
theorem get_jokes_exclusion_witness :
    ((get_jokes frontSampler [] c1SmallQueryDocs c1SmallUser (some 5) "" ""
        GeminiOutcome.err (fun _ => "x")).jokes.filter
      (fun j => excludedJokeId c1SmallUser j.joke_id)).length ≤ 1 :=
  (get_jokes_exclusion frontSampler [] c1SmallQueryDocs c1SmallUser (some 5) "" ""
      GeminiOutcome.err (fun _ => "x") frontSampler_lawful
      (by intro i; show excludedJokeId c1SmallUser "x" = false; decide)
      ((get_jokes frontSampler [] c1SmallQueryDocs c1SmallUser (some 5) "" ""
        GeminiOutcome.err (fun _ => "x")).jokes) (by rfl)).1

/-- get_jokes on the Direct-Serve path. -/
lemma get_jokes_eq_direct (S : Sampler) (db queryDocs : List Joke)
    (user : Option UserDoc) (numJokesReq : Option Int) (ageRange scen : String)
    (gemini : GeminiOutcome) (freshIds : ℕ → String)
    (hcond : directServeCond queryDocs user numJokesReq ageRange scen) :
    get_jokes S db queryDocs user numJokesReq ageRange scen gemini freshIds =
      { response := Except.ok (directServe S
          (feedRemaining queryDocs user numJokesReq ageRange scen)
          (get_random_liked_jokes S db user 1) (effectiveNumJokes numJokesReq))
        geminiInvoked := false
        scheduledSave := [] } := by
  rw [get_jokes.eq_def]
  dsimp only
  rw [if_pos hcond]

/-- get_jokes on the successful Backfill path. -/
lemma get_jokes_eq_backfill_ok (S : Sampler) (db queryDocs : List Joke)
    (user : Option UserDoc) (numJokesReq : Option Int) (ageRange scen : String)
    (items : List GeminiJokeItem) (freshIds : ℕ → String)
    (hcond : ¬ directServeCond queryDocs user numJokesReq ageRange scen) :
    get_jokes S db queryDocs user numJokesReq ageRange scen (GeminiOutcome.ok items)
        freshIds =
      { response := Except.ok (backfillJokes freshIds items ageRange scen)
        geminiInvoked := true
        scheduledSave := backfillJokes freshIds items ageRange scen } := by
  rw [get_jokes.eq_def]
  dsimp only
  rw [if_neg hcond]

/-- get_jokes on the Backfill path with a failed generation and a
nonempty remaining pool. -/
lemma get_jokes_eq_err_fallback (S : Sampler) (db queryDocs : List Joke)
    (user : Option UserDoc) (numJokesReq : Option Int) (ageRange scen : String)
    (freshIds : ℕ → String)
    (hcond : ¬ directServeCond queryDocs user numJokesReq ageRange scen)
    (hne : feedRemaining queryDocs user numJokesReq ageRange scen ≠ []) :
    get_jokes S db queryDocs user numJokesReq ageRange scen GeminiOutcome.err freshIds =
      { response := Except.ok ((feedRemaining queryDocs user numJokesReq ageRange
          scen).take 10)
        geminiInvoked := true
        scheduledSave := [] } := by
  rw [get_jokes.eq_def]
  dsimp only
  rw [if_neg hcond]
  rw [if_neg hne]

/-- get_jokes on the Backfill path with a failed generation and an empty
remaining pool. -/
lemma get_jokes_eq_err_empty (S : Sampler) (db queryDocs : List Joke)
    (user : Option UserDoc) (numJokesReq : Option Int) (ageRange scen : String)
    (freshIds : ℕ → String)
    (hcond : ¬ directServeCond queryDocs user numJokesReq ageRange scen)
    (he : feedRemaining queryDocs user numJokesReq ageRange scen = []) :
    get_jokes S db queryDocs user numJokesReq ageRange scen GeminiOutcome.err freshIds =
      { response := Except.error (), geminiInvoked := true, scheduledSave := [] } := by
  rw [get_jokes.eq_def]
  dsimp only
  rw [if_neg hcond]
  rw [if_pos he]

/-- Backfill responses never repeat an identifier: one injectively fresh
uuid per candidate. -/
lemma backfillJokes_ids_nodup (freshIds : ℕ → String) (items : List GeminiJokeItem)
    (ageRange scen : String) (hinj : Function.Injective freshIds) :
    ((backfillJokes freshIds items ageRange scen).map Joke.joke_id).Nodup := by
  rw [backfillJokes, List.map_map]
  have h1 : (Joke.joke_id ∘ fun p : ℕ × GeminiJokeItem =>
      mkGeminiJoke (freshIds p.1) p.2 ageRange scen) = (fun p => freshIds p.1) := rfl
  rw [h1]
  have h2 : (items.enum.map fun p : ℕ × GeminiJokeItem => freshIds p.1) =
      (items.enum.map Prod.fst).map freshIds := by
    rw [List.map_map]
    rfl
  rw [h2, List.enum_map_fst]
  exact (List.nodup_range _).map hinj

/-- An injective stream of fresh identifiers, modelling that distinct
uuid4 draws are distinct. -/
def freshIdStream (i : ℕ) : String := String.mk (List.replicate i 'a')

/-- The fresh stream is injective. -/
lemma freshIdStream_injective : Function.Injective freshIdStream := by
  intro a b h
  have := congrArg (fun s => s.data.length) h
  simpa [freshIdStream] using this

/-- C2 amended: the feed composer returns exactly requestedCount jokes on
the Direct-Serve path; on the Backfill path it returns one joke per
generated candidate when generation succeeds, and on generation failure
falls back to min(10, remaining) stored jokes (more than requestedCount
when requestedCount < 10 < remaining is violated, see the
counterexample); in every ok response no two jokes share an
identifier. -/
theorem get_jokes_count_contract (S : Sampler) (db queryDocs : List Joke)
    (user : Option UserDoc) (numJokesReq : Option Int) (ageRange scen : String)
    (gemini : GeminiOutcome) (freshIds : ℕ → String)
    (hS : LawfulSampler S) (hq : (queryDocs.map Joke.joke_id).Nodup)
    (hinj : Function.Injective freshIds) :
    (directServeCond queryDocs user numJokesReq ageRange scen →
        (get_jokes S db queryDocs user numJokesReq ageRange scen gemini
            freshIds).jokes.length = effectiveNumJokes numJokesReq) ∧
    (¬ directServeCond queryDocs user numJokesReq ageRange scen →
        ∀ items, gemini = GeminiOutcome.ok items →
          (get_jokes S db queryDocs user numJokesReq ageRange scen gemini
              freshIds).jokes.length = items.length) ∧
    (¬ directServeCond queryDocs user numJokesReq ageRange scen →
        gemini = GeminiOutcome.err →
        feedRemaining queryDocs user numJokesReq ageRange scen ≠ [] →
        (get_jokes S db queryDocs user numJokesReq ageRange scen gemini
            freshIds).jokes.length =
          min 10 (feedRemaining queryDocs user numJokesReq ageRange scen).length) ∧
    (∀ l, (get_jokes S db queryDocs user numJokesReq ageRange scen gemini
        freshIds).response = Except.ok l → (l.map Joke.joke_id).Nodup) := by
  refine ⟨?_, ?_, ?_, ?_⟩
  · intro hcond
    rw [get_jokes_eq_direct S db queryDocs user numJokesReq ageRange scen gemini
      freshIds hcond]
    show (directServe S (feedRemaining queryDocs user numJokesReq ageRange scen)
        (get_random_liked_jokes S db user 1) (effectiveNumJokes numJokesReq)).length =
      effectiveNumJokes numJokesReq
    exact directServe_length S hS _ _ _
      (feedRemaining_ids_nodup queryDocs user numJokesReq ageRange scen hq)
      (effectiveNumJokes_pos numJokesReq) hcond.2.2
  · intro hcond items hg
    subst hg
    rw [get_jokes_eq_backfill_ok S db queryDocs user numJokesReq ageRange scen items
      freshIds hcond]
    show (backfillJokes freshIds items ageRange scen).length = items.length
    rw [backfillJokes]
    simp
  · intro hcond hg hne
    subst hg
    rw [get_jokes_eq_err_fallback S db queryDocs user numJokesReq ageRange scen
      freshIds hcond hne]
    show ((feedRemaining queryDocs user numJokesReq ageRange scen).take 10).length =
      min 10 (feedRemaining queryDocs user numJokesReq ageRange scen).length
    exact List.length_take 10 _
  · intro l hl
    by_cases hcond : directServeCond queryDocs user numJokesReq ageRange scen
    · rw [get_jokes_eq_direct S db queryDocs user numJokesReq ageRange scen gemini
        freshIds hcond] at hl
      have hl2 : Except.ok (directServe S
          (feedRemaining queryDocs user numJokesReq ageRange scen)
          (get_random_liked_jokes S db user 1) (effectiveNumJokes numJokesReq)) =
          Except.ok l := hl
      injection hl2 with hl2
      subst hl2
      exact directServe_ids_nodup S hS _ _ _
        (feedRemaining_ids_nodup queryDocs user numJokesReq ageRange scen hq)
        (liked_remaining_disjoint S hS db queryDocs user numJokesReq ageRange scen 1)
    · cases gemini with
      | ok items =>
          rw [get_jokes_eq_backfill_ok S db queryDocs user numJokesReq ageRange scen
            items freshIds hcond] at hl
          have hl2 : Except.ok (backfillJokes freshIds items ageRange scen) =
              Except.ok l := hl
          injection hl2 with hl2
          subst hl2
          exact backfillJokes_ids_nodup freshIds items ageRange scen hinj
      | err =>
          by_cases hrem : feedRemaining queryDocs user numJokesReq ageRange scen = []
          · rw [get_jokes_eq_err_empty S db queryDocs user numJokesReq ageRange scen
              freshIds hcond hrem] at hl
            have hl2 : (Except.error () : Except Unit (List Joke)) = Except.ok l := hl
            exact absurd hl2 (by simp)
          · rw [get_jokes_eq_err_fallback S db queryDocs user numJokesReq ageRange scen
              freshIds hcond hrem] at hl
            have hl2 : Except.ok ((feedRemaining queryDocs user numJokesReq ageRange
                scen).take 10) = Except.ok l := hl
            injection hl2 with hl2
            subst hl2
            refine List.Nodup.sublist
              (List.Sublist.map Joke.joke_id (List.take_sublist _ _)) ?_
            exact feedRemaining_ids_nodup queryDocs user numJokesReq ageRange scen hq

/-- Witness for the amended C2: the concrete direct-serve request returns
exactly the five requested jokes. -/
theorem get_jokes_count_contract_witness :
    (get_jokes frontSampler [] c1SmallQueryDocs c1SmallUser (some 5) "" ""
        GeminiOutcome.err freshIdStream).jokes.length = effectiveNumJokes (some 5) :=
  (get_jokes_count_contract frontSampler [] c1SmallQueryDocs c1SmallUser (some 5) "" ""
      GeminiOutcome.err freshIdStream frontSampler_lawful (by decide)
      freshIdStream_injective).1 (by decide)
